import Mathlib

/-!
# nalu-wind kernels: a shallow embedding

The embedded sources are

* `src/property_evaluator/InverseDualVolumePropAlgorithm.C`
* `src/node_kernels/SDRSSTNodeKernel.C`
* `src/ngp_algorithms/MdotEdgeAlg.C`
* `src/CoriolisSrc.C`

## Arithmetic

The C++ kernels compute in `double` (`DblType`).  Every kernel below is written
once, generically in a number type `α` that carries the operations the source
uses (`+ - * /`, unary minus, `min`, `max` and decimal literals).  Two
interpretations are used:

* `α := ℚ`: exact arithmetic, no rounding; `x / 0` is Lean's total division.
  Algebraic statements about a kernel are proved in this interpretation.
* `α := Traced`: exact arithmetic that additionally records the right operand
  of every `/` that went into a value.  Statements about which divisors a
  kernel uses are proved in this interpretation.

The functions of `<cmath>` (`sqrt`, `sin`, `cos`, `acos`) are parameters.

## Mesh

A field is addressed the way `stk::mesh::NgpField::get(index, component)` does
it: by the `FastMeshIndex` (bucket id, ordinal in the bucket) of an entity and a
component number.  Field ordinals are resolved from names, so the field manager
is keyed by the name.
-/

namespace sierra.nalu

/-! ## Arithmetic that records divisors -/

/-- A rational value together with the divisors of all divisions that were
performed to compute it. -/
structure Traced where
  val : ℚ
  divisors : List ℚ
deriving DecidableEq

namespace Traced

instance : Add Traced := ⟨fun x y => ⟨x.val + y.val, x.divisors ++ y.divisors⟩⟩
instance : Sub Traced := ⟨fun x y => ⟨x.val - y.val, x.divisors ++ y.divisors⟩⟩
instance : Mul Traced := ⟨fun x y => ⟨x.val * y.val, x.divisors ++ y.divisors⟩⟩
instance : Neg Traced := ⟨fun x => ⟨-x.val, x.divisors⟩⟩
instance : Min Traced := ⟨fun x y => ⟨min x.val y.val, x.divisors ++ y.divisors⟩⟩
instance : Max Traced := ⟨fun x y => ⟨max x.val y.val, x.divisors ++ y.divisors⟩⟩
instance : Div Traced :=
  ⟨fun x y => ⟨x.val / y.val, x.divisors ++ y.divisors ++ [y.val]⟩⟩
instance : OfScientific Traced :=
  ⟨fun m s e => ⟨OfScientific.ofScientific m s e, []⟩⟩

/-- An input value: no division went into it. -/
def input (q : ℚ) : Traced := ⟨q, []⟩

end Traced

/-! ## Mesh and fields -/

/-- The `stk::mesh::FastMeshIndex` of an entity. -/
structure FastMeshIndex where
  bucket_id : Nat
  bucket_ord : Nat
deriving DecidableEq

/-- A field: `get(index, component)`. -/
abbrev Field (α : Type) := FastMeshIndex → Nat → α

/-- All fields of the mesh, by name. -/
abbrev FieldManager (α : Type) := String → Field α

/-- Assignment to one component of one field at one entity. -/
def FieldManager.set {α : Type} (fm : FieldManager α) (name : String)
    (idx : FastMeshIndex) (comp : Nat) (v : α) : FieldManager α :=
  fun name' idx' comp' =>
    if name' = name ∧ idx' = idx ∧ comp' = comp then v else fm name' idx' comp'

/-- A node bucket: the ordinals of the parts it is a member of, and how many
nodes it holds.  The id of a bucket is its position in `BulkData.node_buckets`. -/
structure Bucket where
  parts : List Nat
  size : Nat

/-- The node-rank buckets of the bulk data. -/
structure BulkData where
  node_buckets : List Bucket

/-- The selector `stk::mesh::selectUnion(partVec)`: a bucket is selected when it
is a member of one of the parts. -/
def selectUnion (partVec : List Nat) (b : Bucket) : Bool :=
  partVec.any (fun p => b.parts.contains p)

/-- The buckets `realm_.get_buckets(NODE_RANK, selector)` returns, each with
its bucket id. -/
def BulkData.get_buckets (bulk : BulkData) (selector : Bucket → Bool) :
    List (Nat × Bucket) :=
  bulk.node_buckets.enum.filter (fun ib => selector ib.2)

/-- The turbulence model constants `SDRSSTNodeKernel::setup` asks the realm
for. -/
inductive TurbulenceModelConstant where
  | TM_betaStar
  | TM_tkeProdLimitRatio
  | TM_sigmaWTwo
  | TM_betaOne
  | TM_betaTwo
  | TM_gammaOne
  | TM_gammaTwo
deriving DecidableEq

/-- The members and getters of `SolutionOptions` the embedded sources read.
`get_gravity_vector ndim idim` is component `idim` of
`get_gravity_vector(ndim)`. -/
structure SolutionOptions (α : Type) where
  earthAngularVelocity_ : α
  latitude_ : α
  eastVector_ : List α
  northVector_ : List α
  use_balanced_buoyancy_force_ : Bool
  get_gravity_vector : Nat → Nat → α
  get_relaxation_factor : String → α

/-- The parts of `Realm` the embedded sources read. -/
structure Realm (α : Type) where
  spatial_dimension : Nat
  solutionOptions_ : SolutionOptions α
  ngp_field_manager : FieldManager α
  get_coordinates_name : String
  does_mesh_move : Bool
  has_mesh_deformation : Bool
  get_noc_usage : String → Bool
  get_mdot_interp : α
  get_turb_model_constant : TurbulenceModelConstant → α

/-- Modelled from the spec: the macro `STK_ThrowAssert` is not part of the
sources; following "an invalid selector (e.g., a required single-part selector
matching zero or more than one part) is a fatal, pre-execution error" it raises
a failure carrying the text of the condition when the condition is false. -/
def STK_ThrowAssert (cond : Bool) (text : String) : Except String Unit :=
  if cond then .ok () else .error text

/-! ## `InverseDualVolumePropAlgorithm` -/

/-- The members of `InverseDualVolumePropAlgorithm`: the part vector of the
`Algorithm` base class and the property field. -/
structure InverseDualVolumePropAlgorithm where
  partVec_ : List Nat
  prop_ : String

namespace InverseDualVolumePropAlgorithm

/-- The constructor: `Algorithm(realm, part)` stores the one part. -/
def new (part : Nat) (prop : String) : InverseDualVolumePropAlgorithm :=
  { partVec_ := [part], prop_ := prop }

/-- The member `dualNodalVolume_`, which the constructor looks up by name. -/
def dualNodalVolume_ (_alg : InverseDualVolumePropAlgorithm) : String :=
  "dual_nodal_volume"

section
variable {α : Type} [Div α] [OfScientific α]

/-- The loop over the nodes `k = 0 .. length-1` of bucket `b`:
`prop[k] = 1.0 / dualNodalVolume[k]`. -/
def bucketLoop (alg : InverseDualVolumePropAlgorithm) (b : Nat) (length : Nat)
    (fm : FieldManager α) : FieldManager α :=
  (List.range length).foldl
    (fun fm k =>
      fm.set alg.prop_ ⟨b, k⟩ 0 (1.0 / fm alg.dualNodalVolume_ ⟨b, k⟩ 0))
    fm

/-- The method `execute()`: the outcome and the fields after the call. -/
def execute (alg : InverseDualVolumePropAlgorithm) (bulk : BulkData)
    (fm : FieldManager α) : Except String Unit × FieldManager α :=
  match STK_ThrowAssert (alg.partVec_.length == 1) "partVec_.size() == 1" with
  | .error e => (.error e, fm)
  | .ok () =>
    let selector := selectUnion alg.partVec_
    let node_buckets := bulk.get_buckets selector
    (.ok (),
      node_buckets.foldl (fun fm ib => bucketLoop alg ib.1 ib.2.size fm) fm)

end

end InverseDualVolumePropAlgorithm

/-! ## `SDRSSTNodeKernel` -/

/-- The members of `SDRSSTNodeKernel` that `execute` reads: the fields and the
constants fixed by `setup`, and `nDim_`. -/
structure SDRSSTNodeKernel (α : Type) where
  tke_ : Field α
  sdr_ : Field α
  density_ : Field α
  tvisc_ : Field α
  dudx_ : Field α
  dkdx_ : Field α
  dwdx_ : Field α
  dualNodalVolume_ : Field α
  fOneBlend_ : Field α
  nDim_ : Nat
  relaxFac_ : α
  betaStar_ : α
  tkeProdLimitRatio_ : α
  sigmaWTwo_ : α
  betaOne_ : α
  betaTwo_ : α
  gammaOne_ : α
  gammaTwo_ : α

/-- The local buffers a node kernel adds to: `lhs(i, j)` and `rhs(i)`. -/
structure NodeKernelBuffers (α : Type) where
  lhs : Nat → Nat → α
  rhs : Nat → α

namespace SDRSSTNodeKernel

open TurbulenceModelConstant in
/-- The constructor followed by `setup(realm)`. -/
def setup {α : Type} (realm : Realm α) : SDRSSTNodeKernel α :=
  let fieldMgr := realm.ngp_field_manager
  { tke_ := fieldMgr "turbulent_ke"
    sdr_ := fieldMgr "specific_dissipation_rate"
    density_ := fieldMgr "density"
    tvisc_ := fieldMgr "turbulent_viscosity"
    dudx_ := fieldMgr "dudx"
    dkdx_ := fieldMgr "dkdx"
    dwdx_ := fieldMgr "dwdx"
    dualNodalVolume_ := fieldMgr "dual_nodal_volume"
    fOneBlend_ := fieldMgr "sst_f_one_blending"
    nDim_ := realm.spatial_dimension
    relaxFac_ :=
      realm.solutionOptions_.get_relaxation_factor "specific_dissipation_rate"
    betaStar_ := realm.get_turb_model_constant TM_betaStar
    tkeProdLimitRatio_ := realm.get_turb_model_constant TM_tkeProdLimitRatio
    sigmaWTwo_ := realm.get_turb_model_constant TM_sigmaWTwo
    betaOne_ := realm.get_turb_model_constant TM_betaOne
    betaTwo_ := realm.get_turb_model_constant TM_betaTwo
    gammaOne_ := realm.get_turb_model_constant TM_gammaOne
    gammaTwo_ := realm.get_turb_model_constant TM_gammaTwo }

section
variable {α : Type} [Add α] [Sub α] [Mul α] [Div α] [Min α] [Max α]
  [OfScientific α]

/-- The double loop of `execute` (lines 77-86): the locals `(Pk, crossDiff)`
when it ends. -/
def gradientLoop (k : SDRSSTNodeKernel α) (node : FastMeshIndex) : α × α :=
  (List.range k.nDim_).foldl
    (fun (acc : α × α) i =>
      let crossDiff := acc.2 + k.dkdx_ node i * k.dwdx_ node i
      let offset := k.nDim_ * i
      let Pk := (List.range k.nDim_).foldl
        (fun Pk j =>
          let dudxij := k.dudx_ node (offset + j)
          Pk + dudxij * (dudxij + k.dudx_ node (j * k.nDim_ + i)))
        acc.1
      (Pk, crossDiff))
    (0.0, 0.0)

/-- The local `Dk` of `execute` (line 89). -/
def Dk (k : SDRSSTNodeKernel α) (node : FastMeshIndex) : α :=
  let tke := k.tke_ node 0
  let sdr := k.sdr_ node 0
  let density := k.density_ node 0
  k.betaStar_ * density * sdr * tke

/-- The local `Pk` of `execute` after the clipping of line 92. -/
def clippedPk (k : SDRSSTNodeKernel α) (node : FastMeshIndex) : α :=
  let tvisc := k.tvisc_ node 0
  let Pk := (gradientLoop k node).1
  let Pk := Pk * tvisc
  let Dk := Dk k node
  min (k.tkeProdLimitRatio_ * Dk) Pk

/-- The method `execute(lhs, rhs, node)`: the buffers after the call. -/
def execute (k : SDRSSTNodeKernel α) (buf : NodeKernelBuffers α)
    (node : FastMeshIndex) : NodeKernelBuffers α :=
  let sdr := k.sdr_ node 0
  let density := k.density_ node 0
  let tvisc := k.tvisc_ node 0
  let dVol := k.dualNodalVolume_ node 0
  let fOneBlend := k.fOneBlend_ node 0
  let crossDiff := (gradientLoop k node).2
  let Pk := clippedPk k node
  let omf1 := 1.0 - fOneBlend
  let beta := fOneBlend * k.betaOne_ + omf1 * k.betaTwo_
  let gamma := fOneBlend * k.gammaOne_ + omf1 * k.gammaTwo_
  let sigmaD := 2.0 * omf1 * k.sigmaWTwo_
  let Pw := gamma * density * Pk / max tvisc 1.0e-16
  let Dw := beta * density * sdr * sdr
  let Sw := sigmaD * density * crossDiff / sdr
  { rhs := Function.update buf.rhs 0 (buf.rhs 0 + (Pw - Dw + Sw) * dVol)
    lhs := Function.update buf.lhs 0
      (Function.update (buf.lhs 0) 0
        (buf.lhs 0 0 +
          (2.0 * beta * density * sdr + max (Sw / sdr) 0.0) * dVol /
            k.relaxFac_)) }

end

end SDRSSTNodeKernel

/-! ## `MdotEdgeAlg` -/

/-- What the edge loop hands to the kernel: the mesh index of the edge and of
its two end nodes, `nodeL = fast_mesh_index(entityNodes[0])` and
`nodeR = fast_mesh_index(entityNodes[1])`. -/
structure EntityInfo where
  meshIdx : FastMeshIndex
  nodeL : FastMeshIndex
  nodeR : FastMeshIndex

/-- The members of `MdotEdgeAlg`: the fields the constructor resolves. -/
structure MdotEdgeAlg where
  coordinates_ : String
  velocity_ : String
  pressure_ : String
  densityNp1_ : String
  Gpdx_ : String
  edgeAreaVec_ : String
  Udiag_ : String
  massFlowRate_ : String

namespace MdotEdgeAlg

/-- The constructor (lines 23-41). -/
def new {α : Type} (realm : Realm α) : MdotEdgeAlg :=
  { coordinates_ := realm.get_coordinates_name
    velocity_ :=
      if realm.does_mesh_move && !realm.has_mesh_deformation then "velocity_rtm"
      else "velocity"
    pressure_ := "pressure"
    densityNp1_ := "density"
    Gpdx_ := "dpdx"
    edgeAreaVec_ := "edge_area_vector"
    Udiag_ := "momentum_diag"
    massFlowRate_ := "mass_flow_rate" }

section
variable {α : Type} [Add α] [Sub α] [Mul α] [Div α] [Neg α] [OfScientific α]

/-- The local `nocFac` (line 52). -/
def nocFac (realm : Realm α) : α :=
  if realm.get_noc_usage "pressure" then 1.0 else 0.0

/-- The local array `gravity` (lines 84-91): zero, and with balanced forcing
the first `ndim` components of the gravity vector of the solution options. -/
def gravity (realm : Realm α) (idim : Nat) : α :=
  let ndim := realm.spatial_dimension
  if realm.solutionOptions_.use_balanced_buoyancy_force_ && decide (idim < ndim)
  then realm.solutionOptions_.get_gravity_vector ndim idim
  else 0.0

/-- The field `source` (lines 93-96). -/
def source (alg : MdotEdgeAlg) (realm : Realm α) : Field α :=
  if !realm.solutionOptions_.use_balanced_buoyancy_force_
  then realm.ngp_field_manager alg.Gpdx_
  else realm.ngp_field_manager "buoyancy_source"

/-- The field `source_mask` (lines 97-100). -/
def source_mask (alg : MdotEdgeAlg) (realm : Realm α) : Field α :=
  if !realm.solutionOptions_.use_balanced_buoyancy_force_
  then realm.ngp_field_manager alg.densityNp1_
  else realm.ngp_field_manager "buoyancy_source_mask"

/-- The local array `av` (lines 120-123). -/
def av (alg : MdotEdgeAlg) (realm : Realm α) (einfo : EntityInfo) (d : Nat) : α :=
  realm.ngp_field_manager alg.edgeAreaVec_ einfo.meshIdx d

/-- The local `dxj` of the loops at lines 143 and 164. -/
def dxj (alg : MdotEdgeAlg) (realm : Realm α) (einfo : EntityInfo) (d : Nat) : α :=
  realm.ngp_field_manager alg.coordinates_ einfo.nodeR d -
    realm.ngp_field_manager alg.coordinates_ einfo.nodeL d

/-- The loop of lines 141-148: the locals `(axdx, asq)` when it ends. -/
def geometryLoop (alg : MdotEdgeAlg) (realm : Realm α) (einfo : EntityInfo) :
    α × α :=
  (List.range realm.spatial_dimension).foldl
    (fun (acc : α × α) d =>
      let dxj := dxj alg realm einfo d
      let asq := acc.2 + av alg realm einfo d * av alg realm einfo d
      let axdx := acc.1 + av alg realm einfo d * dxj
      (axdx, asq))
    (0.0, 0.0)

/-- The local `projTimeScale` (line 138). -/
def projTimeScale (alg : MdotEdgeAlg) (realm : Realm α) (einfo : EntityInfo) : α :=
  let udiagL := realm.ngp_field_manager alg.Udiag_ einfo.nodeL 0
  let udiagR := realm.ngp_field_manager alg.Udiag_ einfo.nodeR 0
  0.5 * (1.0 / udiagL + 1.0 / udiagR)

/-- The local `rhoIp` (line 139). -/
def rhoIp (alg : MdotEdgeAlg) (realm : Realm α) (einfo : EntityInfo) : α :=
  let densityL := realm.ngp_field_manager alg.densityNp1_ einfo.nodeL 0
  let densityR := realm.ngp_field_manager alg.densityNp1_ einfo.nodeR 0
  0.5 * (densityL + densityR)

/-- The local `inv_axdx` (line 149). -/
def inv_axdx (alg : MdotEdgeAlg) (realm : Realm α) (einfo : EntityInfo) : α :=
  let axdx := (geometryLoop alg realm einfo).1
  1.0 / axdx

/-- The initial value of `tmdot` (line 151), the pressure-difference term. -/
def pressureTerm (alg : MdotEdgeAlg) (realm : Realm α) (einfo : EntityInfo) : α :=
  let pressureL := realm.ngp_field_manager alg.pressure_ einfo.nodeL 0
  let pressureR := realm.ngp_field_manager alg.pressure_ einfo.nodeR 0
  let asq := (geometryLoop alg realm einfo).2
  (-projTimeScale alg realm einfo) * (pressureR - pressureL) * asq *
    inv_axdx alg realm einfo

/-- The local `kxj` of the loop at line 164, the non-orthogonal correction. -/
def kxj (alg : MdotEdgeAlg) (realm : Realm α) (einfo : EntityInfo) (d : Nat) : α :=
  let asq := (geometryLoop alg realm einfo).2
  av alg realm einfo d - asq * inv_axdx alg realm einfo * dxj alg realm einfo d

/-- The local `GjIp` of the loop at line 164, after lines 173-180. -/
def GjIp (alg : MdotEdgeAlg) (realm : Realm α) (einfo : EntityInfo) (d : Nat) : α :=
  let fieldMgr := realm.ngp_field_manager
  let udiagL := fieldMgr alg.Udiag_ einfo.nodeL 0
  let udiagR := fieldMgr alg.Udiag_ einfo.nodeR 0
  let GjIp :=
    0.5 * (fieldMgr alg.Gpdx_ einfo.nodeR d / udiagR +
      fieldMgr alg.Gpdx_ einfo.nodeL d / udiagL)
  if realm.solutionOptions_.use_balanced_buoyancy_force_ then
    GjIp -
      0.5 *
        ((source_mask alg realm einfo.nodeR 0 * source alg realm einfo.nodeR d) /
            udiagR +
          (source_mask alg realm einfo.nodeL 0 * source alg realm einfo.nodeL d) /
            udiagL)
  else GjIp

/-- The kernel of `execute` (lines 119-190) for one edge: the value of `tmdot`
that line 189 writes to `mass_flow_rate`. -/
def tmdot (alg : MdotEdgeAlg) (realm : Realm α) (einfo : EntityInfo) : α :=
  let ndim := realm.spatial_dimension
  let interpTogether := realm.get_mdot_interp
  let om_interpTogether := 1.0 - interpTogether
  let fieldMgr := realm.ngp_field_manager
  let velocity := fieldMgr alg.velocity_
  let needs_gcl := realm.has_mesh_deformation
  let edgeFaceVelMag := fieldMgr "edge_face_velocity_mag"
  let add_balanced_forcing := realm.solutionOptions_.use_balanced_buoyancy_force_
  let densityL := fieldMgr alg.densityNp1_ einfo.nodeL 0
  let densityR := fieldMgr alg.densityNp1_ einfo.nodeR 0
  let projTimeScale := projTimeScale alg realm einfo
  let rhoIp := rhoIp alg realm einfo
  let tmdot := pressureTerm alg realm einfo
  let tmdot :=
    if add_balanced_forcing then
      let masked_weights :=
        0.5 * (source_mask alg realm einfo.nodeL 0 +
          source_mask alg realm einfo.nodeR 0)
      (List.range ndim).foldl
        (fun tmdot d =>
          tmdot +
            projTimeScale * av alg realm einfo d * gravity realm d * rhoIp *
              masked_weights)
        tmdot
    else tmdot
  let tmdot :=
    if needs_gcl then tmdot - rhoIp * edgeFaceVelMag einfo.meshIdx 0 else tmdot
  (List.range ndim).foldl
    (fun tmdot d =>
      let kxj := kxj alg realm einfo d
      let rhoUjIp :=
        0.5 * (densityR * velocity einfo.nodeR d +
          densityL * velocity einfo.nodeL d)
      let ujIp := 0.5 * (velocity einfo.nodeR d + velocity einfo.nodeL d)
      let GjIp := GjIp alg realm einfo d
      tmdot +
        ((interpTogether * rhoUjIp + om_interpTogether * rhoIp * ujIp + GjIp) *
            av alg realm einfo d -
          kxj * GjIp * nocFac realm))
    tmdot

/-- The method `execute()` over the edges the selector picks: the fields after
the call, `mass_flow_rate` assigned at every edge visited. -/
def execute (alg : MdotEdgeAlg) (realm : Realm α) (edges : List EntityInfo) :
    FieldManager α :=
  edges.foldl
    (fun fm einfo =>
      fm.set alg.massFlowRate_ einfo.meshIdx 0
        (tmdot alg { realm with ngp_field_manager := fm } einfo))
    realm.ngp_field_manager

end

end MdotEdgeAlg

/-! ## `CoriolisSrc` -/

/-- The functions of `<cmath>` the constructor of `CoriolisSrc` calls. -/
structure CMath (α : Type) where
  sqrt : α → α
  sin : α → α
  cos : α → α
  acos : α → α

/-- A rational stand-in for `<cmath>`, used to evaluate examples only: one
Newton step from 1 for `sqrt` (exact at 1), the first Taylor terms of `sin` and
`cos` at 0, and for `acos` the chord between `acos 1 = 0` and `acos (-1)`,
taken as `355/113`. -/
def CMath.rational : CMath ℚ :=
  { sqrt := fun x => (x + 1) / 2
    sin := fun x => x - x ^ 3 / 6
    cos := fun x => 1 - x ^ 2 / 2
    acos := fun x => 355 / 113 * (1 - x) / 2 }

/-- The members of `CoriolisSrc`. -/
structure CoriolisSrc (α : Type) where
  pi_ : α
  earthAngularVelocity_ : α
  latitude_ : α
  nDim_ : Nat
  eastVector_ : List α
  northVector_ : List α
  upVector_ : List α
  sinphi_ : α
  cosphi_ : α
  corfac_ : α
  Jxy_ : α
  Jxz_ : α
  Jyz_ : α

namespace CoriolisSrc

section
variable {α : Type} [Add α] [Sub α] [Mul α] [Div α] [Neg α] [OfScientific α]

/-- Reading `v[i]` of a `std::vector<double>`.  Past the end the source has
undefined behaviour; the embedding reads `0.0` there. -/
def at_ (v : List α) (i : Nat) : α := v.getD i 0.0

/-- The call `v.resize(n)` on a vector of doubles: new elements are `0.0`. -/
def resize (v : List α) (n : Nat) : List α :=
  v.take n ++ List.replicate (n - v.length) 0.0

/-- The body of `cross_product(u, v, cross)` (lines 76-78): the local `cross`
when the function returns. -/
def cross_product_body (u v cross : List α) : List α :=
  let cross := cross.set 0 (at_ u 1 * at_ v 2 - at_ u 2 * at_ v 1)
  let cross := cross.set 1 (-(at_ u 0 * at_ v 2 - at_ u 2 * at_ v 0))
  let cross := cross.set 2 (at_ u 0 * at_ v 1 - at_ u 1 * at_ v 0)
  cross

/-- A call `cross_product(u, v, cross)` as its caller sees it: the vectors the
caller passed, after the call.  The three parameters are declared
`std::vector<double>`, without `&`, so the function works on copies and the
result of the body stays in the callee. -/
def cross_product (u v cross : List α) : List α × List α × List α :=
  let _cross := cross_product_body u v cross
  (u, v, cross)

/-- The loop of lines 47-50: both vectors divided by their magnitudes. -/
def normalize (nDim_ : Nat) (magE magN : α) (east north : List α) :
    List α × List α :=
  (List.range nDim_).foldl
    (fun (acc : List α × List α) i =>
      (acc.1.set i (at_ acc.1 i / magE), acc.2.set i (at_ acc.2 i / magN)))
    (east, north)

/-- The constructor `CoriolisSrc(realm)`: the failure it throws, or the object
it builds.  The members start as empty vectors; `eastVector_.resize(nDim_)` and
`northVector_.resize(nDim_)` are overwritten by the assignments that follow
them, `upVector_.resize(nDim_)` is not. -/
def new (m : CMath α) (realm : Realm α) : Except String (CoriolisSrc α) :=
  let pi_ := m.acos (-1.0)
  let earthAngularVelocity_ := realm.solutionOptions_.earthAngularVelocity_
  let latitude_ := realm.solutionOptions_.latitude_ * pi_ / 180.0
  let nDim_ := realm.spatial_dimension
  if nDim_ ≠ 3 then .error "CoriolisSrc: nDim_ != 3"
  else
    let upVector_ := resize ([] : List α) nDim_
    let eastVector_ := realm.solutionOptions_.eastVector_
    let northVector_ := realm.solutionOptions_.northVector_
    let magE :=
      m.sqrt (at_ eastVector_ 0 * at_ eastVector_ 0 +
        at_ eastVector_ 1 * at_ eastVector_ 1 +
        at_ eastVector_ 2 * at_ eastVector_ 2)
    let magN :=
      m.sqrt (at_ northVector_ 0 * at_ northVector_ 0 +
        at_ northVector_ 1 * at_ northVector_ 1 +
        at_ northVector_ 2 * at_ northVector_ 2)
    let (eastVector_, northVector_) :=
      normalize nDim_ magE magN eastVector_ northVector_
    let (eastVector_, northVector_, upVector_) :=
      cross_product eastVector_ northVector_ upVector_
    let sinphi_ := m.sin latitude_
    let cosphi_ := m.cos latitude_
    let corfac_ := 2.0 * earthAngularVelocity_
    let Jxy_ :=
      corfac_ *
          (at_ eastVector_ 0 * at_ northVector_ 1 -
            at_ northVector_ 0 * at_ eastVector_ 1) *
          sinphi_ +
        (at_ upVector_ 0 * at_ eastVector_ 1 -
            at_ eastVector_ 0 * at_ upVector_ 1) *
          cosphi_
    let Jxz_ :=
      corfac_ *
          (at_ eastVector_ 0 * at_ northVector_ 2 -
            at_ northVector_ 0 * at_ eastVector_ 2) *
          sinphi_ +
        (at_ upVector_ 0 * at_ eastVector_ 2 -
            at_ eastVector_ 0 * at_ upVector_ 2) *
          cosphi_
    let Jyz_ :=
      corfac_ *
          (at_ eastVector_ 1 * at_ northVector_ 2 -
            at_ northVector_ 1 * at_ eastVector_ 2) *
          sinphi_ +
        (at_ upVector_ 1 * at_ eastVector_ 2 -
            at_ eastVector_ 1 * at_ upVector_ 2) *
          cosphi_
    .ok
      { pi_ := pi_
        earthAngularVelocity_ := earthAngularVelocity_
        latitude_ := latitude_
        nDim_ := nDim_
        eastVector_ := eastVector_
        northVector_ := northVector_
        upVector_ := upVector_
        sinphi_ := sinphi_
        cosphi_ := cosphi_
        corfac_ := corfac_
        Jxy_ := Jxy_
        Jxz_ := Jxz_
        Jyz_ := Jyz_ }

end

end CoriolisSrc

/-! ## Traced inputs, the terms the specification names, and sample inputs -/

/-- The realm `realm` in the traced arithmetic: every value it holds is an
input. -/
def Realm.traced (realm : Realm ℚ) : Realm Traced :=
  { spatial_dimension := realm.spatial_dimension
    solutionOptions_ :=
      { earthAngularVelocity_ := .input realm.solutionOptions_.earthAngularVelocity_
        latitude_ := .input realm.solutionOptions_.latitude_
        eastVector_ := realm.solutionOptions_.eastVector_.map .input
        northVector_ := realm.solutionOptions_.northVector_.map .input
        use_balanced_buoyancy_force_ :=
          realm.solutionOptions_.use_balanced_buoyancy_force_
        get_gravity_vector := fun ndim idim =>
          .input (realm.solutionOptions_.get_gravity_vector ndim idim)
        get_relaxation_factor := fun dofName =>
          .input (realm.solutionOptions_.get_relaxation_factor dofName) }
    ngp_field_manager := fun name idx comp =>
      .input (realm.ngp_field_manager name idx comp)
    get_coordinates_name := realm.get_coordinates_name
    does_mesh_move := realm.does_mesh_move
    has_mesh_deformation := realm.has_mesh_deformation
    get_noc_usage := realm.get_noc_usage
    get_mdot_interp := .input realm.get_mdot_interp
    get_turb_model_constant := fun c => .input (realm.get_turb_model_constant c) }

/-- A realm for the examples: three dimensions, a static mesh, no balanced
buoyancy forcing, non-orthogonal correction on, the SST constants, unit east
and north vectors, and the fields `fields`. -/
def Realm.sample (fields : FieldManager ℚ) : Realm ℚ :=
  { spatial_dimension := 3
    solutionOptions_ :=
      { earthAngularVelocity_ := 72921159 / 1000000000000
        latitude_ := 45
        eastVector_ := [1, 0, 0]
        northVector_ := [0, 1, 0]
        use_balanced_buoyancy_force_ := false
        get_gravity_vector := fun _ idim => if idim = 2 then -981 / 100 else 0
        get_relaxation_factor := fun _ => 1 }
    ngp_field_manager := fields
    get_coordinates_name := "coordinates"
    does_mesh_move := false
    has_mesh_deformation := false
    get_noc_usage := fun _ => true
    get_mdot_interp := 1 / 2
    get_turb_model_constant := fun c =>
      match c with
      | .TM_betaStar => 9 / 100
      | .TM_tkeProdLimitRatio => 10
      | .TM_sigmaWTwo => 107 / 125
      | .TM_betaOne => 3 / 40
      | .TM_betaTwo => 207 / 2500
      | .TM_gammaOne => 5 / 9
      | .TM_gammaTwo => 11 / 25 }

namespace SDRSSTNodeKernel

/-- Fields for the examples: `specific_dissipation_rate = sdr` and
`turbulent_viscosity = tvisc` at every node, unit `turbulent_ke`, `density` and
`dual_nodal_volume`, blending `1/2`, `dkdx = dwdx = (1, 0, 0)` and a shear
`dudx` with the single entry `du/dy = 1`. -/
def sampleFields (sdr tvisc : ℚ) : FieldManager ℚ := fun name _ comp =>
  if name = "specific_dissipation_rate" then sdr
  else if name = "turbulent_viscosity" then tvisc
  else if name = "turbulent_ke" then 1
  else if name = "density" then 1
  else if name = "dual_nodal_volume" then 1
  else if name = "sst_f_one_blending" then 1 / 2
  else if name = "dkdx" then (if comp = 0 then 1 else 0)
  else if name = "dwdx" then (if comp = 0 then 1 else 0)
  else if name = "dudx" then (if comp = 1 then 1 else 0)
  else 0

/-- Buffers that hold zero, in the traced arithmetic. -/
def zeroBuffers : NodeKernelBuffers Traced :=
  { lhs := fun _ _ => .input 0, rhs := fun _ => .input 0 }

/-- The kernels `k` and `k'` hold the same field values at `node` (every
component of every field there) and the same constants: `nDim_`, the relaxation
factor and the model constants that `setup` fixes.  Nothing is asked of the
fields at any other node. -/
def agreeAt {α : Type} (k k' : SDRSSTNodeKernel α) (node : FastMeshIndex) : Prop :=
  k'.tke_ node = k.tke_ node ∧ k'.sdr_ node = k.sdr_ node ∧
    k'.density_ node = k.density_ node ∧ k'.tvisc_ node = k.tvisc_ node ∧
    k'.dudx_ node = k.dudx_ node ∧ k'.dkdx_ node = k.dkdx_ node ∧
    k'.dwdx_ node = k.dwdx_ node ∧
    k'.dualNodalVolume_ node = k.dualNodalVolume_ node ∧
    k'.fOneBlend_ node = k.fOneBlend_ node ∧ k'.nDim_ = k.nDim_ ∧
    k'.relaxFac_ = k.relaxFac_ ∧ k'.betaStar_ = k.betaStar_ ∧
    k'.tkeProdLimitRatio_ = k.tkeProdLimitRatio_ ∧ k'.sigmaWTwo_ = k.sigmaWTwo_ ∧
    k'.betaOne_ = k.betaOne_ ∧ k'.betaTwo_ = k.betaTwo_ ∧
    k'.gammaOne_ = k.gammaOne_ ∧ k'.gammaTwo_ = k.gammaTwo_

end SDRSSTNodeKernel

namespace MdotEdgeAlg

/-- The pure convective term the specification names,
`sum_d rho * u_d * av[d]`, with the density and the velocity of node L. -/
def convectiveTerm (alg : MdotEdgeAlg) (realm : Realm ℚ) (einfo : EntityInfo) : ℚ :=
  ((List.range realm.spatial_dimension).map
    (fun d =>
      realm.ngp_field_manager alg.densityNp1_ einfo.nodeL 0 *
        realm.ngp_field_manager alg.velocity_ einfo.nodeL d *
        av alg realm einfo d)).sum

/-- What the interpolated pressure gradient adds to `tmdot` in the loop at
line 164: `sum_d (GjIp * av[d] - kxj * GjIp * nocFac)`. -/
def pressureGradientTerm (alg : MdotEdgeAlg) (realm : Realm ℚ)
    (einfo : EntityInfo) : ℚ :=
  ((List.range realm.spatial_dimension).map
    (fun d =>
      GjIp alg realm einfo d * av alg realm einfo d -
        kxj alg realm einfo d * GjIp alg realm einfo d * nocFac realm)).sum

/-- An edge for the examples, from node `(0, 0)` to node `(0, 1)`. -/
def sampleEdge : EntityInfo :=
  { meshIdx := ⟨0, 0⟩, nodeL := ⟨0, 0⟩, nodeR := ⟨0, 1⟩ }

/-- Fields for the examples: node L at the origin and node R one unit away
along axis `dir`; the area vector `(1, 0, 0)`; at both nodes pressure 5,
density 1, velocity `(2, 0, 0)`, momentum diagonal 1 and pressure gradient
`dpdx = (3, 0, 0)`. -/
def sampleFields (dir : Nat) : FieldManager ℚ := fun name idx comp =>
  if name = "coordinates" then
    (if idx = ⟨0, 1⟩ ∧ comp = dir then 1 else 0)
  else if name = "edge_area_vector" then (if comp = 0 then 1 else 0)
  else if name = "pressure" then 5
  else if name = "density" then 1
  else if name = "velocity" then (if comp = 0 then 2 else 0)
  else if name = "momentum_diag" then 1
  else if name = "dpdx" then (if comp = 0 then 3 else 0)
  else 0

/-- The realm of the examples with the fields `sampleFields dir`. -/
def sampleRealm (dir : Nat) : Realm ℚ := Realm.sample (sampleFields dir)

/-- The algorithm constructed on the realm of the examples. -/
def sampleAlg : MdotEdgeAlg := MdotEdgeAlg.new (sampleRealm 0)

/-- Fields for the examples with different states at the two end nodes: node L
at the origin and node R at `(1, 2, 0)`, the area vector `(1, 1, 1)`, and
pressure, density, velocity, momentum diagonal, pressure gradient and buoyancy
mask that differ between L and R; `edge_face_velocity_mag = 7` and
`buoyancy_source = (0, 0, -2)`. -/
def skewFields : FieldManager ℚ := fun name idx comp =>
  if name = "coordinates" then
    (if idx = ⟨0, 1⟩ then (if comp = 0 then 1 else if comp = 1 then 2 else 0) else 0)
  else if name = "edge_area_vector" then 1
  else if name = "pressure" then (if idx = ⟨0, 1⟩ then 3 else 5)
  else if name = "density" then (if idx = ⟨0, 1⟩ then 2 else 1)
  else if name = "velocity" then
    (if idx = ⟨0, 1⟩ then (if comp = 2 then 0 else 1) else (if comp = 1 then 0 else 2))
  else if name = "momentum_diag" then (if idx = ⟨0, 1⟩ then 2 else 1)
  else if name = "dpdx" then (if idx = ⟨0, 1⟩ then 1 else (if comp = 0 then 3 else 0))
  else if name = "edge_face_velocity_mag" then 7
  else if name = "buoyancy_source" then (if comp = 2 then -2 else 0)
  else if name = "buoyancy_source_mask" then (if idx = ⟨0, 1⟩ then 1 / 2 else 1)
  else 0

/-- The realm of the examples with the fields `skewFields`, a deforming mesh
and balanced-buoyancy forcing. -/
def skewRealm : Realm ℚ :=
  { Realm.sample skewFields with
    has_mesh_deformation := true
    solutionOptions_ :=
      { (Realm.sample skewFields).solutionOptions_ with
        use_balanced_buoyancy_force_ := true } }

/-- What the loop at lines 156-158 adds to `tmdot` with balanced-buoyancy
forcing; zero without it. -/
def forcingTerm (alg : MdotEdgeAlg) (realm : Realm ℚ) (einfo : EntityInfo) : ℚ :=
  if realm.solutionOptions_.use_balanced_buoyancy_force_ then
    ((List.range realm.spatial_dimension).map
      (fun d =>
        projTimeScale alg realm einfo * av alg realm einfo d * gravity realm d *
            rhoIp alg realm einfo *
          (0.5 * (source_mask alg realm einfo.nodeL 0 +
            source_mask alg realm einfo.nodeR 0)))).sum
  else 0

/-- What line 162 subtracts from `tmdot` when mesh deformation is active; zero
when it is not. -/
def gclTerm (alg : MdotEdgeAlg) (realm : Realm ℚ) (einfo : EntityInfo) : ℚ :=
  if realm.has_mesh_deformation then
    rhoIp alg realm einfo *
      realm.ngp_field_manager "edge_face_velocity_mag" einfo.meshIdx 0
  else 0

/-- What iteration `d` of the loop at line 164 adds to `tmdot` (lines
182-185). -/
def loopTerm (alg : MdotEdgeAlg) (realm : Realm ℚ) (einfo : EntityInfo)
    (d : Nat) : ℚ :=
  let velocity := realm.ngp_field_manager alg.velocity_
  let densityL := realm.ngp_field_manager alg.densityNp1_ einfo.nodeL 0
  let densityR := realm.ngp_field_manager alg.densityNp1_ einfo.nodeR 0
  let rhoUjIp :=
    0.5 * (densityR * velocity einfo.nodeR d + densityL * velocity einfo.nodeL d)
  let ujIp := 0.5 * (velocity einfo.nodeR d + velocity einfo.nodeL d)
  (realm.get_mdot_interp * rhoUjIp +
        (1.0 - realm.get_mdot_interp) * rhoIp alg realm einfo * ujIp +
        GjIp alg realm einfo d) *
      av alg realm einfo d -
    kxj alg realm einfo d * GjIp alg realm einfo d * nocFac realm

/-- The names under which the kernel reads node fields: the members the
constructor resolves and the two buoyancy fields.  The source resolves the edge
fields `edge_area_vector` and `edge_face_velocity_mag` with `EDGE_RANK`, so
they are never one of these; in the field manager, which is keyed by the name
alone, that is a condition on the names. -/
def nodeFieldNames (alg : MdotEdgeAlg) : List String :=
  [alg.coordinates_, alg.velocity_, alg.pressure_, alg.densityNp1_, alg.Gpdx_,
    alg.Udiag_, "buoyancy_source", "buoyancy_source_mask"]

/-- The edge `einfo` with the roles of its two end nodes swapped. -/
def reversedEdge (einfo : EntityInfo) : EntityInfo :=
  { meshIdx := einfo.meshIdx, nodeL := einfo.nodeR, nodeR := einfo.nodeL }

/-- The realm for the reversed edge: the edge area vector is negated and, when
mesh deformation is active, so is `edge_face_velocity_mag`; everything else is
as in `realm`. -/
def reversedRealm (alg : MdotEdgeAlg) (realm : Realm ℚ) : Realm ℚ :=
  { realm with
    ngp_field_manager := fun name idx comp =>
      if name = alg.edgeAreaVec_ ∨
          (realm.has_mesh_deformation = true ∧ name = "edge_face_velocity_mag")
      then -realm.ngp_field_manager name idx comp
      else realm.ngp_field_manager name idx comp }

end MdotEdgeAlg

/-! ## Lemmas on folds and on the traced arithmetic -/

theorem foldl_add_eq_sum {γ : Type} (g : γ → ℚ) (l : List γ) (init : ℚ) :
    l.foldl (fun acc x => acc + g x) init = init + (l.map g).sum := by
  induction l generalizing init with
  | nil => simp
  | cons x l ih =>
    simp only [List.foldl_cons, ih, List.map_cons, List.sum_cons]
    ring

theorem foldl_related {β β' γ : Type} (R : β → β' → Prop) (f : β → γ → β)
    (f' : β' → γ → β') (l : List γ) (init : β) (init' : β') (h0 : R init init')
    (hstep : ∀ acc acc' x, R acc acc' → R (f acc x) (f' acc' x)) :
    R (l.foldl f init) (l.foldl f' init') := by
  induction l generalizing init init' with
  | nil => exact h0
  | cons x l ih => exact ih _ _ (hstep _ _ _ h0)

theorem FieldManager.set_apply {α : Type} (fm : FieldManager α) (name : String)
    (idx : FastMeshIndex) (comp : Nat) (v : α) (name' : String)
    (idx' : FastMeshIndex) (comp' : Nat) :
    fm.set name idx comp v name' idx' comp' =
      if name' = name ∧ idx' = idx ∧ comp' = comp then v else fm name' idx' comp' :=
  rfl

namespace Traced

@[simp] theorem val_add (x y : Traced) : (x + y).val = x.val + y.val := rfl
@[simp] theorem val_sub (x y : Traced) : (x - y).val = x.val - y.val := rfl
@[simp] theorem val_mul (x y : Traced) : (x * y).val = x.val * y.val := rfl
@[simp] theorem val_div (x y : Traced) : (x / y).val = x.val / y.val := rfl
@[simp] theorem val_neg (x : Traced) : (-x).val = -x.val := rfl
@[simp] theorem val_min (x y : Traced) : (min x y).val = min x.val y.val := rfl
@[simp] theorem val_max (x y : Traced) : (max x y).val = max x.val y.val := rfl
@[simp] theorem val_ofScientific (m : Nat) (s : Bool) (e : Nat) :
    (OfScientific.ofScientific m s e : Traced).val = OfScientific.ofScientific m s e :=
  rfl
@[simp] theorem val_input (q : ℚ) : (input q).val = q := rfl
@[simp] theorem divisors_add (x y : Traced) :
    (x + y).divisors = x.divisors ++ y.divisors := rfl
@[simp] theorem divisors_sub (x y : Traced) :
    (x - y).divisors = x.divisors ++ y.divisors := rfl
@[simp] theorem divisors_mul (x y : Traced) :
    (x * y).divisors = x.divisors ++ y.divisors := rfl
@[simp] theorem divisors_div (x y : Traced) :
    (x / y).divisors = x.divisors ++ y.divisors ++ [y.val] := rfl
@[simp] theorem divisors_neg (x : Traced) : (-x).divisors = x.divisors := rfl
@[simp] theorem divisors_min (x y : Traced) :
    (min x y).divisors = x.divisors ++ y.divisors := rfl
@[simp] theorem divisors_max (x y : Traced) :
    (max x y).divisors = x.divisors ++ y.divisors := rfl
@[simp] theorem divisors_ofScientific (m : Nat) (s : Bool) (e : Nat) :
    (OfScientific.ofScientific m s e : Traced).divisors = [] := rfl
@[simp] theorem divisors_input (q : ℚ) : (input q).divisors = [] := rfl

/-- The value of a sum accumulated by a loop. -/
theorem foldl_add_val {γ : Type} (g : γ → Traced) (l : List γ) (init : Traced) :
    (l.foldl (fun acc x => acc + g x) init).val =
      l.foldl (fun acc x => acc + (g x).val) init.val := by
  induction l generalizing init with
  | nil => rfl
  | cons x l ih => simp only [List.foldl_cons, ih, val_add]

/-- The divisors of a sum accumulated by a loop. -/
theorem foldl_add_divisors {γ : Type} (g : γ → Traced) (l : List γ) (init : Traced)
    (q : ℚ) :
    q ∈ (l.foldl (fun acc x => acc + g x) init).divisors ↔
      q ∈ init.divisors ∨ ∃ x ∈ l, q ∈ (g x).divisors := by
  induction l generalizing init with
  | nil => simp
  | cons x l ih =>
    simp only [List.foldl_cons, ih, divisors_add, List.mem_append, List.mem_cons,
      exists_eq_or_imp]
    tauto

end Traced

/-! ## Theorems: `InverseDualVolumePropAlgorithm` -/

namespace InverseDualVolumePropAlgorithm

section
variable {α : Type} [Div α] [OfScientific α]

/-- Visiting the distinct ordinals `ks` of bucket `b`: the property field holds
the inverse of the incoming dual volume at the nodes visited, and every other
value of every field is the incoming one. -/
theorem foldl_nodes (alg : InverseDualVolumePropAlgorithm) (b : Nat) (ks : List Nat)
    (hks : ks.Nodup) (fm : FieldManager α) (name : String) (idx : FastMeshIndex)
    (comp : Nat) :
    let out := ks.foldl
      (fun fm k =>
        fm.set alg.prop_ ⟨b, k⟩ 0 (1.0 / fm alg.dualNodalVolume_ ⟨b, k⟩ 0))
      fm
    ((name = alg.prop_ ∧ idx.bucket_id = b ∧ idx.bucket_ord ∈ ks ∧ comp = 0) →
        out name idx comp = 1.0 / fm alg.dualNodalVolume_ idx 0) ∧
      (¬ (name = alg.prop_ ∧ idx.bucket_id = b ∧ idx.bucket_ord ∈ ks ∧ comp = 0) →
        out name idx comp = fm name idx comp) := by
  induction ks generalizing fm with
  | nil => simp
  | cons k ks ih =>
    obtain ⟨hk, hks'⟩ := List.nodup_cons.mp hks
    have ih' := ih hks' (fm.set alg.prop_ ⟨b, k⟩ 0 (1.0 / fm alg.dualNodalVolume_ ⟨b, k⟩ 0))
    simp only [List.foldl_cons] at ih' ⊢
    obtain ⟨ih1, ih2⟩ := ih'
    by_cases hin : name = alg.prop_ ∧ idx.bucket_id = b ∧ idx.bucket_ord ∈ ks ∧ comp = 0
    · have hne : idx ≠ ⟨b, k⟩ := by
        intro h
        apply hk
        have := hin.2.2.1
        rw [h] at this
        exact this
      constructor
      · intro _
        rw [ih1 hin, FieldManager.set_apply, if_neg (fun h => hne h.2.1)]
      · intro h
        exact absurd ⟨hin.1, hin.2.1, List.mem_cons_of_mem _ hin.2.2.1, hin.2.2.2⟩ h
    · rw [ih2 hin, FieldManager.set_apply]
      constructor
      · rintro ⟨h1, h2, h3, h4⟩
        have h3' : idx.bucket_ord = k := by
          rcases List.mem_cons.mp h3 with h | h
          · exact h
          · exact absurd ⟨h1, h2, h, h4⟩ hin
        have hidx : idx = ⟨b, k⟩ := by
          obtain ⟨bi, bo⟩ := idx
          simp only at h2 h3'
          rw [h2, h3']
        rw [if_pos ⟨h1, hidx, h4⟩, hidx]
      · intro h
        have : ¬ (name = alg.prop_ ∧ idx = ⟨b, k⟩ ∧ comp = 0) := by
          rintro ⟨h1, h2, h3⟩
          apply h
          subst h2
          exact ⟨h1, rfl, List.mem_cons_self _ _, h3⟩
        rw [if_neg this]

/-- The effect of `bucketLoop` on every value of every field. -/
theorem bucketLoop_apply (alg : InverseDualVolumePropAlgorithm) (b length : Nat)
    (fm : FieldManager α) (name : String) (idx : FastMeshIndex) (comp : Nat) :
    ((name = alg.prop_ ∧ idx.bucket_id = b ∧ idx.bucket_ord < length ∧ comp = 0) →
        bucketLoop alg b length fm name idx comp =
          1.0 / fm alg.dualNodalVolume_ idx 0) ∧
      (¬ (name = alg.prop_ ∧ idx.bucket_id = b ∧ idx.bucket_ord < length ∧ comp = 0) →
        bucketLoop alg b length fm name idx comp = fm name idx comp) := by
  have h := foldl_nodes alg b (List.range length) (List.nodup_range length) fm name idx comp
  simp only [List.mem_range] at h
  exact h

/-- The effect of the loop over buckets with distinct ids. -/
theorem foldl_buckets (alg : InverseDualVolumePropAlgorithm)
    (bs : List (Nat × Bucket)) (hbs : (bs.map Prod.fst).Nodup)
    (fm : FieldManager α) (name : String) (idx : FastMeshIndex) (comp : Nat) :
    let out := bs.foldl (fun fm ib => bucketLoop alg ib.1 ib.2.size fm) fm
    ((name = alg.prop_ ∧ comp = 0 ∧
          ∃ ib ∈ bs, ib.1 = idx.bucket_id ∧ idx.bucket_ord < ib.2.size) →
        out name idx comp = 1.0 / fm alg.dualNodalVolume_ idx 0) ∧
      (¬ (name = alg.prop_ ∧ comp = 0 ∧
          ∃ ib ∈ bs, ib.1 = idx.bucket_id ∧ idx.bucket_ord < ib.2.size) →
        out name idx comp = fm name idx comp) := by
  induction bs generalizing fm with
  | nil => simp
  | cons x bs ih =>
    simp only [List.map_cons, List.nodup_cons] at hbs
    obtain ⟨hx, hbs'⟩ := hbs
    have ih' := ih hbs' (bucketLoop alg x.1 x.2.size fm)
    simp only [List.foldl_cons] at ih' ⊢
    obtain ⟨ih1, ih2⟩ := ih'
    by_cases hin : name = alg.prop_ ∧ comp = 0 ∧
        ∃ ib ∈ bs, ib.1 = idx.bucket_id ∧ idx.bucket_ord < ib.2.size
    · obtain ⟨h1, h2, ib, hib, hid, hord⟩ := hin
      have hne : idx.bucket_id ≠ x.1 := by
        intro h
        apply hx
        rw [← h, ← hid]
        exact List.mem_map_of_mem _ hib
      constructor
      · intro _
        rw [ih1 ⟨h1, h2, ib, hib, hid, hord⟩]
        rw [(bucketLoop_apply alg x.1 x.2.size fm alg.dualNodalVolume_ idx 0).2
          (fun h => hne h.2.1)]
      · intro h
        exact absurd ⟨h1, h2, ib, List.mem_cons_of_mem _ hib, hid, hord⟩ h
    · rw [ih2 hin]
      constructor
      · rintro ⟨h1, h2, ib, hib, hid, hord⟩
        rcases List.mem_cons.mp hib with h | h
        · subst h
          exact (bucketLoop_apply alg ib.1 ib.2.size fm name idx comp).1
            ⟨h1, hid.symm, hord, h2⟩
        · exact absurd ⟨h1, h2, ib, h, hid, hord⟩ hin
      · intro h
        apply (bucketLoop_apply alg x.1 x.2.size fm name idx comp).2
        rintro ⟨h1, h2, h3, h4⟩
        exact h ⟨h1, h4, x, List.mem_cons_self _ _, h2.symm, h3⟩

/-- The buckets `get_buckets` returns have distinct ids. -/
theorem get_buckets_nodup (bulk : BulkData) (selector : Bucket → Bool) :
    ((bulk.get_buckets selector).map Prod.fst).Nodup := by
  unfold BulkData.get_buckets
  exact (List.nodup_enum_map_fst bulk.node_buckets).sublist
    ((List.filter_sublist _).map Prod.fst)

/-- Claim C1: when the part vector holds a single part, `execute` succeeds and,
for every node `k` of every bucket `b` that the selector of that part picks, the
property field afterwards holds `1.0 / dualNodalVolume` with the value the field
`dual_nodal_volume` had at that node before the call. -/
theorem execute_inverse_of_dual_volume (alg : InverseDualVolumePropAlgorithm)
    (bulk : BulkData) (fm : FieldManager α) (hpart : alg.partVec_.length = 1)
    (b : Nat) (bucket : Bucket) (hb : bulk.node_buckets[b]? = some bucket)
    (hsel : selectUnion alg.partVec_ bucket = true) (k : Nat)
    (hk : k < bucket.size) :
    (execute alg bulk fm).1 = .ok () ∧
      (execute alg bulk fm).2 alg.prop_ ⟨b, k⟩ 0 =
        1.0 / fm "dual_nodal_volume" ⟨b, k⟩ 0 := by
  have hmem : (b, bucket) ∈ bulk.get_buckets (selectUnion alg.partVec_) := by
    unfold BulkData.get_buckets
    rw [List.mem_filter]
    exact ⟨List.mk_mem_enum_iff_getElem?.mpr hb, hsel⟩
  have hloop := (foldl_buckets alg (bulk.get_buckets (selectUnion alg.partVec_))
    (get_buckets_nodup bulk _) fm alg.prop_ ⟨b, k⟩ 0).1
    ⟨rfl, rfl, (b, bucket), hmem, rfl, hk⟩
  constructor
  · simp [execute, STK_ThrowAssert, hpart]
  · simp only [execute, STK_ThrowAssert, hpart, beq_self_eq_true, if_true]
    exact hloop

/-- Claim C8: `execute` fails exactly when the part vector does not have size
one, and a failing call leaves every field as it was. -/
theorem execute_fails_iff_not_one_part (alg : InverseDualVolumePropAlgorithm)
    (bulk : BulkData) (fm : FieldManager α) :
    ((execute alg bulk fm).1 = .error "partVec_.size() == 1" ↔
        alg.partVec_.length ≠ 1) ∧
      ((execute alg bulk fm).1 = .ok () ↔ alg.partVec_.length = 1) ∧
      ((execute alg bulk fm).1 ≠ .ok () → (execute alg bulk fm).2 = fm) := by
  by_cases h : alg.partVec_.length = 1
  · simp [execute, STK_ThrowAssert, h]
  · simp [execute, STK_ThrowAssert, h]

end

/-- A mesh of two node buckets, the first in part 7, and a dual volume of 4 at
every node: the hypotheses of `execute_inverse_of_dual_volume` hold at node 1
of bucket 0, where the property becomes `1.0 / 4`. -/
theorem execute_inverse_of_dual_volume_witness :
    (new 7 "inverse_dual_volume").partVec_.length = 1 ∧
      selectUnion (new 7 "inverse_dual_volume").partVec_ ⟨[7], 2⟩ = true ∧
      (execute (new 7 "inverse_dual_volume") ⟨[⟨[7], 2⟩, ⟨[3], 1⟩]⟩
          (fun name _ _ => if name = "dual_nodal_volume" then (4 : ℚ) else 0)).2
        "inverse_dual_volume" ⟨0, 1⟩ 0 = 1.0 / 4 :=
  ⟨rfl, by decide,
    (execute_inverse_of_dual_volume (new 7 "inverse_dual_volume")
      ⟨[⟨[7], 2⟩, ⟨[3], 1⟩]⟩
      (fun name _ _ => if name = "dual_nodal_volume" then (4 : ℚ) else 0)
      rfl 0 ⟨[7], 2⟩ rfl (by decide) 1 (by decide)).2⟩

end InverseDualVolumePropAlgorithm

/-! ## Theorems: `SDRSSTNodeKernel` -/

namespace SDRSSTNodeKernel

/-- Claim C2: in exact arithmetic the production term `Pk` that `execute` uses
after the clipping of line 92 is at most
`tkeProdLimitRatio * betaStar * density * sdr * tke`, for every velocity
gradient `dudx` (and for every sign of the inputs). -/
theorem clippedPk_le_limit (k : SDRSSTNodeKernel ℚ) (node : FastMeshIndex) :
    clippedPk k node ≤
      k.tkeProdLimitRatio_ * k.betaStar_ * k.density_ node 0 * k.sdr_ node 0 *
        k.tke_ node 0 := by
  have h : k.tkeProdLimitRatio_ * Dk k node =
      k.tkeProdLimitRatio_ * k.betaStar_ * k.density_ node 0 * k.sdr_ node 0 *
        k.tke_ node 0 := by
    simp only [Dk]
    ring
  rw [← h]
  exact min_le_left _ _

section
variable {α : Type} [Add α] [Sub α] [Mul α] [Div α] [Min α] [Max α]
  [OfScientific α]

/-- Two kernels that hold the same field values at the node and the same
constants leave the same buffers, whatever their fields hold elsewhere. -/
theorem execute_eq_of_agreeAt (k k' : SDRSSTNodeKernel α) (node : FastMeshIndex)
    (h : agreeAt k k' node) (buf : NodeKernelBuffers α) :
    execute k' buf node = execute k buf node := by
  obtain ⟨hTke, hSdr, hRho, hTvisc, hDudx, hDkdx, hDwdx, hVol, hBlend, hDim, hRelax,
    hBetaStar, hRatio, hSigma, hBetaOne, hBetaTwo, hGammaOne, hGammaTwo⟩ := h
  simp only [execute, clippedPk, Dk, gradientLoop, hTke, hSdr, hRho, hTvisc, hDudx,
    hDkdx, hDwdx, hVol, hBlend, hDim, hRelax, hBetaStar, hRatio, hSigma, hBetaOne,
    hBetaTwo, hGammaOne, hGammaTwo]

/-- Claim C5: `execute` adds to `rhs(0)` and to `lhs(0, 0)` increments `dR` and
`dL`, whatever the buffers hold on entry, and it leaves every other entry of the
buffers alone; the increments depend only on the field values at the node and
on the constants fixed by `setup`: every kernel that agrees with this one there
adds the same `dR` and `dL`. -/
theorem execute_accumulates (k : SDRSSTNodeKernel α) (node : FastMeshIndex) :
    ∃ dR dL : α,
      (∀ buf : NodeKernelBuffers α,
        (execute k buf node).rhs 0 = buf.rhs 0 + dR ∧
          (execute k buf node).lhs 0 0 = buf.lhs 0 0 + dL ∧
          (∀ i, i ≠ 0 → (execute k buf node).rhs i = buf.rhs i) ∧
          (∀ i j, i ≠ 0 ∨ j ≠ 0 → (execute k buf node).lhs i j = buf.lhs i j)) ∧
        ∀ k' : SDRSSTNodeKernel α, agreeAt k k' node →
          ∀ buf : NodeKernelBuffers α,
            (execute k' buf node).rhs 0 = buf.rhs 0 + dR ∧
              (execute k' buf node).lhs 0 0 = buf.lhs 0 0 + dL := by
  refine ⟨?dR, ?dL, fun buf => ⟨?h1, ?h2, ?h3, ?h4⟩, fun k' hk buf => ⟨?h5, ?h6⟩⟩
  case h1 =>
    simp only [execute, Function.update_same]
    exact rfl
  case h2 =>
    simp only [execute, Function.update_same]
    exact rfl
  case h3 =>
    intro i hi
    simp only [execute, Function.update_noteq hi]
  case h4 =>
    intro i j hij
    simp only [execute]
    by_cases hi : i = 0
    · subst hi
      have hj : j ≠ 0 := by
        rcases hij with h | h
        · exact absurd rfl h
        · exact h
      simp only [Function.update_same, Function.update_noteq hj]
    · simp only [Function.update_noteq hi]
  case h5 =>
    rw [execute_eq_of_agreeAt k k' node hk buf]
    simp only [execute, Function.update_same]
  case h6 =>
    rw [execute_eq_of_agreeAt k k' node hk buf]
    simp only [execute, Function.update_same]

end

/-- The double loop on traced inputs performs no division. -/
theorem gradientLoop_traced (realm : Realm ℚ) (node : FastMeshIndex) :
    gradientLoop (setup realm.traced) node =
      (.input (gradientLoop (setup realm) node).1,
        .input (gradientLoop (setup realm) node).2) := by
  unfold gradientLoop
  refine foldl_related
    (fun (a : Traced × Traced) (a' : ℚ × ℚ) => a = (.input a'.1, .input a'.2))
    _ _ _ _ _ rfl ?_
  intro acc acc' i h
  subst h
  refine Prod.ext ?_ rfl
  exact foldl_related (fun (a : Traced) (a' : ℚ) => a = .input a') _ _ _ _ _ rfl
    (fun a a' j h => by subst h; rfl)

/-- The clipped production term on traced inputs performs no division. -/
theorem clippedPk_traced (realm : Realm ℚ) (node : FastMeshIndex) :
    clippedPk (setup realm.traced) node = .input (clippedPk (setup realm) node) := by
  unfold clippedPk
  rw [gradientLoop_traced]
  rfl

/-- Claim C6, as amended: for every realm, node and buffers, the divisions that
go into the new `rhs(0)` are, in order, the one of `Pw` by
`max(tvisc, 1.0e-16)`, which is at least the positive floor `1.0e-16`, and the
one of `Sw` by the field value `sdr` itself; those that go into the new
`lhs(0, 0)` are the same one of `Sw`, the one of `Sw / sdr` by `sdr` itself and
the one by `relaxFac_`.  No floor is applied to `sdr`. -/
theorem execute_divisors (realm : Realm ℚ) (buf : NodeKernelBuffers Traced)
    (node : FastMeshIndex) :
    ((execute (setup realm.traced) buf node).rhs 0).divisors =
        (buf.rhs 0).divisors ++
          [max (realm.ngp_field_manager "turbulent_viscosity" node 0) 1.0e-16,
            realm.ngp_field_manager "specific_dissipation_rate" node 0] ∧
      ((execute (setup realm.traced) buf node).lhs 0 0).divisors =
        (buf.lhs 0 0).divisors ++
          [realm.ngp_field_manager "specific_dissipation_rate" node 0,
            realm.ngp_field_manager "specific_dissipation_rate" node 0,
            realm.solutionOptions_.get_relaxation_factor
              "specific_dissipation_rate"] ∧
      (1.0e-16 : ℚ) ≤
        max (realm.ngp_field_manager "turbulent_viscosity" node 0) 1.0e-16 ∧
      (0 : ℚ) < 1.0e-16 := by
  refine ⟨?_, ?_, le_max_right _ _, by norm_num⟩
  · simp only [execute, Function.update_same, clippedPk_traced, gradientLoop_traced]
    rfl
  · simp only [execute, Function.update_same, clippedPk_traced, gradientLoop_traced]
    rfl

/-- Claim C6 fails at `sdr = 0`, `tvisc = 0` with every other input
non-negative: the kernel divides by `sdr = 0`, so no positive floor bounds the
divisors that go into `rhs(0)` and `lhs(0, 0)` from below. -/
theorem sdr_divisor_not_floored :
    (∀ name idx comp, 0 ≤ sampleFields 0 0 name idx comp) ∧
      (∀ c, 0 ≤ (Realm.sample (sampleFields 0 0)).get_turb_model_constant c) ∧
      ¬ ∃ floor : ℚ, 0 < floor ∧
        ∀ q ∈
          ((execute (setup (Realm.sample (sampleFields 0 0)).traced) zeroBuffers
              ⟨0, 0⟩).rhs 0).divisors ++
            ((execute (setup (Realm.sample (sampleFields 0 0)).traced) zeroBuffers
              ⟨0, 0⟩).lhs 0 0).divisors,
          floor ≤ q := by
  refine ⟨?_, ?_, ?_⟩
  · have key : ∀ (c : Prop) [Decidable c] (a b : ℚ), 0 ≤ a → 0 ≤ b →
        0 ≤ (if c then a else b) := by
      intro c _ a b ha hb
      split <;> assumption
    intro name idx comp
    unfold sampleFields
    repeat (first | exact le_refl 0 | positivity | apply key)
  · intro c
    cases c <;> simp only [Realm.sample] <;> positivity
  · rintro ⟨floor, hpos, h⟩
    have h0 : floor ≤ 0 := by
      apply h 0
      simp [execute, setup, clippedPk, Dk, gradientLoop, Realm.traced, Realm.sample,
        sampleFields, zeroBuffers, List.range, List.range.loop]
    exact absurd hpos (not_lt.mpr h0)

end SDRSSTNodeKernel

/-! ## Theorems: `MdotEdgeAlg` -/

namespace MdotEdgeAlg

/-- On a single edge `execute` writes the value of `tmdot` to the mass flow
rate of that edge. -/
theorem execute_single_edge {α : Type} [Add α] [Sub α] [Mul α] [Div α] [Neg α]
    [OfScientific α] (alg : MdotEdgeAlg) (realm : Realm α) (einfo : EntityInfo) :
    execute alg realm [einfo] alg.massFlowRate_ einfo.meshIdx 0 =
      tmdot alg realm einfo := by
  simp [execute, FieldManager.set]

/-- Claim C3, as amended: without balanced-buoyancy forcing and without mesh
deformation, on an edge whose end nodes have equal pressure, equal density and
equal velocity, whose area vector has exactly one non-zero component and whose
divisors `udiagL`, `udiagR` and `axdx` are not zero, the pressure-difference
term is zero and the mass flow rate is the convective term
`sum_d rho * u_d * av[d]` plus the contribution of the interpolated nodal
pressure gradient, `sum_d (GjIp * av[d] - kxj * GjIp * nocFac)`; it is the pure
convective term when in addition `dpdx` is zero at both nodes. -/
theorem tmdot_equal_states (alg : MdotEdgeAlg) (realm : Realm ℚ) (einfo : EntityInfo)
    (hb : realm.solutionOptions_.use_balanced_buoyancy_force_ = false)
    (hg : realm.has_mesh_deformation = false)
    (hp : realm.ngp_field_manager alg.pressure_ einfo.nodeL 0 =
      realm.ngp_field_manager alg.pressure_ einfo.nodeR 0)
    (hrho : realm.ngp_field_manager alg.densityNp1_ einfo.nodeL 0 =
      realm.ngp_field_manager alg.densityNp1_ einfo.nodeR 0)
    (hu : ∀ d, d < realm.spatial_dimension →
      realm.ngp_field_manager alg.velocity_ einfo.nodeL d =
        realm.ngp_field_manager alg.velocity_ einfo.nodeR d)
    (_hav : ∃ j, j < realm.spatial_dimension ∧ av alg realm einfo j ≠ 0 ∧
      ∀ d, d < realm.spatial_dimension → d ≠ j → av alg realm einfo d = 0)
    (_hudL : realm.ngp_field_manager alg.Udiag_ einfo.nodeL 0 ≠ 0)
    (_hudR : realm.ngp_field_manager alg.Udiag_ einfo.nodeR 0 ≠ 0)
    (_haxdx : (geometryLoop alg realm einfo).1 ≠ 0) :
    pressureTerm alg realm einfo = 0 ∧
      tmdot alg realm einfo =
        convectiveTerm alg realm einfo + pressureGradientTerm alg realm einfo ∧
      ((∀ d, d < realm.spatial_dimension →
          realm.ngp_field_manager alg.Gpdx_ einfo.nodeL d = 0 ∧
            realm.ngp_field_manager alg.Gpdx_ einfo.nodeR d = 0) →
        tmdot alg realm einfo = convectiveTerm alg realm einfo) := by
  have hP : pressureTerm alg realm einfo = 0 := by
    simp only [pressureTerm, hp, sub_self, mul_zero, zero_mul]
  have hT : tmdot alg realm einfo =
      convectiveTerm alg realm einfo + pressureGradientTerm alg realm einfo := by
    simp only [tmdot, hb, hg, Bool.false_eq_true, if_false]
    rw [foldl_add_eq_sum, hP, zero_add, convectiveTerm, pressureGradientTerm,
      ← List.sum_map_add]
    congr 1
    apply List.map_congr_left
    intro d hd
    rw [List.mem_range] at hd
    simp only [rhoIp, hrho, hu d hd]
    norm_num
    ring
  refine ⟨hP, hT, ?_⟩
  intro hG
  have hzero : pressureGradientTerm alg realm einfo = 0 := by
    unfold pressureGradientTerm
    apply List.sum_eq_zero
    intro x hx
    rw [List.mem_map] at hx
    obtain ⟨d, hd, rfl⟩ := hx
    rw [List.mem_range] at hd
    have hGd : GjIp alg realm einfo d = 0 := by
      simp only [GjIp, hb, Bool.false_eq_true, if_false, (hG d hd).1, (hG d hd).2]
      norm_num
    rw [hGd]
    ring
  rw [hT, hzero, add_zero]

/-- The hypotheses of `tmdot_equal_states` hold on the sample edge along the
x axis, where the mass flow rate is the convective term plus the contribution
of the pressure gradient. -/
theorem tmdot_equal_states_witness :
    pressureTerm sampleAlg (sampleRealm 0) sampleEdge = 0 ∧
      tmdot sampleAlg (sampleRealm 0) sampleEdge =
        convectiveTerm sampleAlg (sampleRealm 0) sampleEdge +
          pressureGradientTerm sampleAlg (sampleRealm 0) sampleEdge ∧
      ((∀ d, d < (sampleRealm 0).spatial_dimension →
          (sampleRealm 0).ngp_field_manager sampleAlg.Gpdx_ sampleEdge.nodeL d = 0 ∧
            (sampleRealm 0).ngp_field_manager sampleAlg.Gpdx_ sampleEdge.nodeR d = 0) →
        tmdot sampleAlg (sampleRealm 0) sampleEdge =
          convectiveTerm sampleAlg (sampleRealm 0) sampleEdge) :=
  tmdot_equal_states sampleAlg (sampleRealm 0) sampleEdge rfl rfl (by decide!)
    (by decide!) (by decide!) ⟨0, by decide!⟩ (by decide!) (by decide!) (by decide!)

/-- Claim C3 fails on the sample edge along the x axis: forcing and mesh
deformation are off, the end nodes have equal pressure, density and velocity,
the area vector is `(1, 0, 0)`, and with `dpdx = (3, 0, 0)` at both nodes the
mass flow rate is 5 while the pure convective term is 2. -/
theorem tmdot_not_pure_convective :
    (sampleRealm 0).solutionOptions_.use_balanced_buoyancy_force_ = false ∧
      (sampleRealm 0).has_mesh_deformation = false ∧
      (sampleRealm 0).ngp_field_manager sampleAlg.pressure_ sampleEdge.nodeL 0 =
        (sampleRealm 0).ngp_field_manager sampleAlg.pressure_ sampleEdge.nodeR 0 ∧
      (sampleRealm 0).ngp_field_manager sampleAlg.densityNp1_ sampleEdge.nodeL 0 =
        (sampleRealm 0).ngp_field_manager sampleAlg.densityNp1_ sampleEdge.nodeR 0 ∧
      (∀ d, d < 3 →
        (sampleRealm 0).ngp_field_manager sampleAlg.velocity_ sampleEdge.nodeL d =
          (sampleRealm 0).ngp_field_manager sampleAlg.velocity_ sampleEdge.nodeR d) ∧
      av sampleAlg (sampleRealm 0) sampleEdge 0 = 1 ∧
      av sampleAlg (sampleRealm 0) sampleEdge 1 = 0 ∧
      av sampleAlg (sampleRealm 0) sampleEdge 2 = 0 ∧
      tmdot sampleAlg (sampleRealm 0) sampleEdge = 5 ∧
      convectiveTerm sampleAlg (sampleRealm 0) sampleEdge = 2 ∧
      tmdot sampleAlg (sampleRealm 0) sampleEdge ≠
        convectiveTerm sampleAlg (sampleRealm 0) sampleEdge := by
  decide!

section
variable (alg : MdotEdgeAlg) (realm : Realm ℚ) (einfo : EntityInfo)

theorem traced_field (name : String) (idx : FastMeshIndex) (comp : Nat) :
    realm.traced.ngp_field_manager name idx comp =
      .input (realm.ngp_field_manager name idx comp) := rfl

theorem traced_balanced :
    realm.traced.solutionOptions_.use_balanced_buoyancy_force_ =
      realm.solutionOptions_.use_balanced_buoyancy_force_ := rfl

theorem av_traced (d : Nat) :
    av alg realm.traced einfo d = .input (av alg realm einfo d) := rfl

theorem dxj_traced (d : Nat) :
    dxj alg realm.traced einfo d = .input (dxj alg realm einfo d) := rfl

theorem geometryLoop_traced :
    geometryLoop alg realm.traced einfo =
      (.input (geometryLoop alg realm einfo).1,
        .input (geometryLoop alg realm einfo).2) := by
  unfold geometryLoop
  exact foldl_related
    (fun (a : Traced × Traced) (a' : ℚ × ℚ) => a = (.input a'.1, .input a'.2))
    _ _ _ _ _ rfl (fun acc acc' d h => by subst h; rfl)

theorem projTimeScale_traced :
    projTimeScale alg realm.traced einfo =
      ⟨projTimeScale alg realm einfo,
        [realm.ngp_field_manager alg.Udiag_ einfo.nodeL 0,
          realm.ngp_field_manager alg.Udiag_ einfo.nodeR 0]⟩ := rfl

theorem rhoIp_traced :
    rhoIp alg realm.traced einfo = .input (rhoIp alg realm einfo) := rfl

theorem inv_axdx_traced :
    inv_axdx alg realm.traced einfo =
      ⟨inv_axdx alg realm einfo, [(geometryLoop alg realm einfo).1]⟩ := by
  unfold inv_axdx
  rw [geometryLoop_traced]
  rfl

theorem pressureTerm_traced :
    pressureTerm alg realm.traced einfo =
      ⟨pressureTerm alg realm einfo,
        [realm.ngp_field_manager alg.Udiag_ einfo.nodeL 0,
          realm.ngp_field_manager alg.Udiag_ einfo.nodeR 0,
          (geometryLoop alg realm einfo).1]⟩ := by
  unfold pressureTerm
  rw [projTimeScale_traced, inv_axdx_traced, geometryLoop_traced]
  rfl

theorem kxj_traced (d : Nat) :
    kxj alg realm.traced einfo d =
      ⟨kxj alg realm einfo d, [(geometryLoop alg realm einfo).1]⟩ := by
  unfold kxj
  rw [inv_axdx_traced, geometryLoop_traced]
  rfl

theorem nocFac_traced : nocFac realm.traced = .input (nocFac realm) := by
  unfold nocFac
  by_cases h : realm.get_noc_usage "pressure" = true
  · rw [show realm.traced.get_noc_usage = realm.get_noc_usage from rfl, if_pos h,
      if_pos h]
    rfl
  · rw [show realm.traced.get_noc_usage = realm.get_noc_usage from rfl, if_neg h,
      if_neg h]
    rfl

theorem gravity_traced (d : Nat) :
    gravity realm.traced d = .input (gravity realm d) := by
  unfold gravity
  rw [traced_balanced]
  by_cases h : (realm.solutionOptions_.use_balanced_buoyancy_force_ &&
      decide (d < realm.spatial_dimension)) = true
  · rw [show realm.traced.spatial_dimension = realm.spatial_dimension from rfl,
      if_pos h, if_pos h]
    rfl
  · rw [show realm.traced.spatial_dimension = realm.spatial_dimension from rfl,
      if_neg h, if_neg h]
    rfl

theorem source_traced (idx : FastMeshIndex) (d : Nat) :
    source alg realm.traced idx d = .input (source alg realm idx d) := by
  unfold source
  rw [traced_balanced]
  by_cases h : (!realm.solutionOptions_.use_balanced_buoyancy_force_) = true
  · rw [if_pos h, if_pos h]
    rfl
  · rw [if_neg h, if_neg h]
    rfl

theorem source_mask_traced (idx : FastMeshIndex) (d : Nat) :
    source_mask alg realm.traced idx d = .input (source_mask alg realm idx d) := by
  unfold source_mask
  rw [traced_balanced]
  by_cases h : (!realm.solutionOptions_.use_balanced_buoyancy_force_) = true
  · rw [if_pos h, if_pos h]
    rfl
  · rw [if_neg h, if_neg h]
    rfl

theorem GjIp_traced_val (d : Nat) :
    (GjIp alg realm.traced einfo d).val = GjIp alg realm einfo d := by
  unfold GjIp
  simp only [traced_balanced, traced_field, source_traced, source_mask_traced]
  by_cases h : realm.solutionOptions_.use_balanced_buoyancy_force_ = true
  · simp [h]
  · simp [h]

theorem GjIp_traced_divisors (d : Nat) :
    ∀ x ∈ (GjIp alg realm.traced einfo d).divisors,
      x = realm.ngp_field_manager alg.Udiag_ einfo.nodeL 0 ∨
        x = realm.ngp_field_manager alg.Udiag_ einfo.nodeR 0 := by
  unfold GjIp
  simp only [traced_balanced, traced_field, source_traced, source_mask_traced]
  by_cases h : realm.solutionOptions_.use_balanced_buoyancy_force_ = true
  · simp [h]
  · simp [h]

/-- The traced kernel computes the value of the exact kernel. -/
theorem tmdot_traced_val :
    (tmdot alg realm.traced einfo).val = tmdot alg realm einfo := by
  unfold tmdot
  simp only [traced_balanced, traced_field,
    show realm.traced.has_mesh_deformation = realm.has_mesh_deformation from rfl,
    show realm.traced.spatial_dimension = realm.spatial_dimension from rfl,
    show realm.traced.get_mdot_interp = .input realm.get_mdot_interp from rfl]
  rw [Traced.foldl_add_val]
  by_cases hb : realm.solutionOptions_.use_balanced_buoyancy_force_ = true <;>
    by_cases hg : realm.has_mesh_deformation = true <;>
    simp [hb, hg, Traced.foldl_add_val, pressureTerm_traced, projTimeScale_traced,
      rhoIp_traced, av_traced, gravity_traced, source_mask_traced, kxj_traced,
      GjIp_traced_val, nocFac_traced]

/-- The divisors of the traced kernel. -/
theorem tmdot_traced_divisors (q : ℚ) :
    q ∈ (tmdot alg realm.traced einfo).divisors ↔
      q = realm.ngp_field_manager alg.Udiag_ einfo.nodeL 0 ∨
        q = realm.ngp_field_manager alg.Udiag_ einfo.nodeR 0 ∨
        q = (geometryLoop alg realm einfo).1 := by
  have hG := GjIp_traced_divisors alg realm einfo
  unfold tmdot
  simp only [traced_balanced, traced_field,
    show realm.traced.has_mesh_deformation = realm.has_mesh_deformation from rfl,
    show realm.traced.spatial_dimension = realm.spatial_dimension from rfl,
    show realm.traced.get_mdot_interp = .input realm.get_mdot_interp from rfl]
  rw [Traced.foldl_add_divisors]
  constructor
  · rintro (h | ⟨d, _, h⟩)
    · by_cases hb : realm.solutionOptions_.use_balanced_buoyancy_force_ = true <;>
        by_cases hg : realm.has_mesh_deformation = true <;>
        simp [hb, hg, Traced.foldl_add_divisors, pressureTerm_traced,
          projTimeScale_traced, rhoIp_traced, av_traced, gravity_traced,
          source_mask_traced] at h <;>
        tauto
    · simp [av_traced, kxj_traced, nocFac_traced, rhoIp_traced] at h
      rcases h with h | h | h
      · rcases hG d q h with h' | h' <;> simp [h']
      · simp [h]
      · rcases hG d q h with h' | h' <;> simp [h']
  · intro h
    left
    by_cases hb : realm.solutionOptions_.use_balanced_buoyancy_force_ = true <;>
      by_cases hg : realm.has_mesh_deformation = true <;>
      simp [hb, hg, Traced.foldl_add_divisors, pressureTerm_traced,
        projTimeScale_traced, rhoIp_traced, av_traced, gravity_traced,
        source_mask_traced] <;>
      tauto

/-- Claim C7, as amended: for every realm and edge, with or without balanced
forcing, mesh deformation and non-orthogonal correction, the divisors of the
divisions that go into the mass flow rate are exactly the momentum diagonals
`udiagL`, `udiagR` of the end nodes and `axdx = av . (xR - xL)` as they are
read and computed: no floor replaces them, and the traced kernel computes the
value of the exact one. -/
theorem tmdot_divides_by_udiag_and_axdx :
    (tmdot alg realm.traced einfo).val = tmdot alg realm einfo ∧
      ∀ q : ℚ, q ∈ (tmdot alg realm.traced einfo).divisors ↔
        q = realm.ngp_field_manager alg.Udiag_ einfo.nodeL 0 ∨
          q = realm.ngp_field_manager alg.Udiag_ einfo.nodeR 0 ∨
          q = (geometryLoop alg realm einfo).1 :=
  ⟨tmdot_traced_val alg realm einfo, tmdot_traced_divisors alg realm einfo⟩

end

/-- Claim C7 fails on the sample edge along the y axis, whose area vector
`(1, 0, 0)` is orthogonal to the edge vector `(0, 1, 0)`: `axdx` is zero and the
kernel divides by it, so no positive floor bounds its divisors from below. -/
theorem axdx_divisor_not_floored :
    (geometryLoop sampleAlg (sampleRealm 1) sampleEdge).1 = 0 ∧
      ¬ ∃ floor : ℚ, 0 < floor ∧
        ∀ q ∈ (tmdot sampleAlg (sampleRealm 1).traced sampleEdge).divisors,
          floor ≤ q := by
  refine ⟨by decide!, ?_⟩
  rintro ⟨floor, hpos, h⟩
  have h0 : floor ≤ 0 := h 0 (by decide!)
  exact absurd hpos (not_lt.mpr h0)

end MdotEdgeAlg

/-! ## Theorems: `CoriolisSrc` -/

namespace CoriolisSrc

section
variable {α : Type} [Add α] [Sub α] [Mul α] [Div α] [Neg α] [OfScientific α]

/-- Claim C4: the constructor fails, with the message of the guard, exactly
when the spatial dimension of the mesh is not 3 (so on every 2D mesh), and
builds the object exactly when it is 3.  The failure is that of the guard for
every choice of the east and north vectors and of the `<cmath>` functions:
nothing after the guard takes part in it. -/
theorem new_fails_iff_not_three_dimensional (m : CMath α) (realm : Realm α) :
    (new m realm = .error "CoriolisSrc: nDim_ != 3" ↔ realm.spatial_dimension ≠ 3) ∧
      ((∃ c, new m realm = .ok c) ↔ realm.spatial_dimension = 3) ∧
      (∀ (m' : CMath α) (realm' : Realm α),
        realm.spatial_dimension ≠ 3 →
          realm'.spatial_dimension = realm.spatial_dimension →
          new m' realm' = new m realm) := by
  by_cases h : realm.spatial_dimension = 3
  · simp [new, h]
  · refine ⟨by simp [new, h], by simp [new, h], ?_⟩
    intro m' realm' _ h'
    simp [new, h, h']

/-- On every 3D mesh the member `upVector_` is left as `resize(3)` made it. -/
theorem new_upVector (m : CMath α) (realm : Realm α) (c : CoriolisSrc α)
    (h : new m realm = .ok c) : c.upVector_ = [0.0, 0.0, 0.0] := by
  by_cases h3 : realm.spatial_dimension = 3
  · simp only [new, h3, ne_eq, not_true_eq_false, if_false, cross_product,
      Except.ok.injEq] at h
    rw [← h]
    rfl
  · simp [new, h3] at h

end

/-- Claim C10 at east `(1, 0, 0)` and north `(0, 1, 0)` on a 3D mesh: the body
of `cross_product` computes `(0, 0, 1)`, and the constructed object holds the
normalized east and north vectors but `upVector_ = (0, 0, 0)`. -/
theorem upVector_stays_zero :
    (Realm.sample (fun _ _ _ => 0)).spatial_dimension = 3 ∧
      cross_product_body [1, 0, 0] [0, 1, 0] [(0 : ℚ), 0, 0] = [0, 0, 1] ∧
      (new CMath.rational (Realm.sample (fun _ _ _ => 0))).toOption.map
          (fun c => (c.eastVector_, c.northVector_, c.upVector_)) =
        some ([1, 0, 0], [0, 1, 0], [0, 0, 0]) := by
  decide!

end CoriolisSrc

/-! ## Theorems: `MdotEdgeAlg`, the parts of the mass flow rate -/

namespace MdotEdgeAlg

/-- The mass flow rate as the sum of its four parts: the pressure-difference
term, the forcing term, minus the term of the geometric conservation law, and
the terms of the loop at line 164. -/
theorem tmdot_eq_terms (alg : MdotEdgeAlg) (realm : Realm ℚ) (einfo : EntityInfo) :
    tmdot alg realm einfo =
      pressureTerm alg realm einfo + forcingTerm alg realm einfo -
          gclTerm alg realm einfo +
        ((List.range realm.spatial_dimension).map (loopTerm alg realm einfo)).sum := by
  unfold tmdot forcingTerm gclTerm
  simp only [foldl_add_eq_sum]
  by_cases hb : realm.solutionOptions_.use_balanced_buoyancy_force_ = true <;>
    by_cases hg : realm.has_mesh_deformation = true <;>
    simp only [hb, hg, if_true, if_false, Bool.false_eq_true] <;>
    unfold loopTerm <;>
    ring


/-- The kernel reads only the node fields of `nodeFieldNames`, the edge area
vector and, when mesh deformation is active, `edge_face_velocity_mag`. -/
theorem tmdot_fields_agree (alg : MdotEdgeAlg) (realm : Realm ℚ)
    (fm' : FieldManager ℚ) (einfo : EntityInfo)
    (hnode : ∀ name ∈ nodeFieldNames alg, fm' name = realm.ngp_field_manager name)
    (hedge : fm' alg.edgeAreaVec_ = realm.ngp_field_manager alg.edgeAreaVec_)
    (hgcl : realm.has_mesh_deformation = true →
      fm' "edge_face_velocity_mag" = realm.ngp_field_manager "edge_face_velocity_mag") :
    tmdot alg { realm with ngp_field_manager := fm' } einfo = tmdot alg realm einfo := by
  have h1 := hnode alg.coordinates_ (by simp [nodeFieldNames])
  have h2 := hnode alg.velocity_ (by simp [nodeFieldNames])
  have h3 := hnode alg.pressure_ (by simp [nodeFieldNames])
  have h4 := hnode alg.densityNp1_ (by simp [nodeFieldNames])
  have h5 := hnode alg.Gpdx_ (by simp [nodeFieldNames])
  have h6 := hnode alg.Udiag_ (by simp [nodeFieldNames])
  have h7 := hnode "buoyancy_source" (by simp [nodeFieldNames])
  have h8 := hnode "buoyancy_source_mask" (by simp [nodeFieldNames])
  by_cases hg : realm.has_mesh_deformation = true
  · have h9 := hgcl hg
    simp only [tmdot, pressureTerm, projTimeScale, rhoIp, inv_axdx, geometryLoop, kxj,
      GjIp, av, dxj, source, source_mask, gravity, nocFac, h1, h2, h3, h4, h5, h6, h7,
      h8, h9, hedge]
  · simp only [tmdot, pressureTerm, projTimeScale, rhoIp, inv_axdx, geometryLoop, kxj,
      GjIp, av, dxj, source, source_mask, gravity, nocFac, h1, h2, h3, h4, h5, h6, h7,
      h8, hedge, hg, if_false, Bool.false_eq_true]

/-- Claim C11: for every edge and all inputs, the mass flow rate with mesh
deformation active is the one with it inactive minus
`0.5 * (densityL + densityR) * edgeFaceVelMag`, and with mesh deformation
inactive the mass flow rate is the same for every content of the field
`edge_face_velocity_mag`. -/
theorem tmdot_mesh_deformation (alg : MdotEdgeAlg) (realm : Realm ℚ)
    (einfo : EntityInfo)
    (hnode : "edge_face_velocity_mag" ∉ nodeFieldNames alg)
    (hedge : alg.edgeAreaVec_ ≠ "edge_face_velocity_mag") :
    tmdot alg { realm with has_mesh_deformation := true } einfo =
        tmdot alg { realm with has_mesh_deformation := false } einfo -
          0.5 *
              (realm.ngp_field_manager alg.densityNp1_ einfo.nodeL 0 +
                realm.ngp_field_manager alg.densityNp1_ einfo.nodeR 0) *
            realm.ngp_field_manager "edge_face_velocity_mag" einfo.meshIdx 0 ∧
      ∀ fm' : FieldManager ℚ,
        (∀ name, name ≠ "edge_face_velocity_mag" →
          fm' name = realm.ngp_field_manager name) →
        tmdot alg
            { realm with has_mesh_deformation := false, ngp_field_manager := fm' }
            einfo =
          tmdot alg { realm with has_mesh_deformation := false } einfo := by
  constructor
  · rw [tmdot_eq_terms, tmdot_eq_terms]
    have hP : pressureTerm alg { realm with has_mesh_deformation := true } einfo =
        pressureTerm alg { realm with has_mesh_deformation := false } einfo := rfl
    have hF : forcingTerm alg { realm with has_mesh_deformation := true } einfo =
        forcingTerm alg { realm with has_mesh_deformation := false } einfo := rfl
    have hL : loopTerm alg { realm with has_mesh_deformation := true } einfo =
        loopTerm alg { realm with has_mesh_deformation := false } einfo := rfl
    have hG1 : gclTerm alg { realm with has_mesh_deformation := true } einfo =
        0.5 *
            (realm.ngp_field_manager alg.densityNp1_ einfo.nodeL 0 +
              realm.ngp_field_manager alg.densityNp1_ einfo.nodeR 0) *
          realm.ngp_field_manager "edge_face_velocity_mag" einfo.meshIdx 0 := rfl
    have hG0 : gclTerm alg { realm with has_mesh_deformation := false } einfo = 0 := rfl
    rw [hP, hF, hL, hG1, hG0]
    ring
  · intro fm' hfm
    exact tmdot_fields_agree alg { realm with has_mesh_deformation := false } fm' einfo
      (fun name hname => hfm name (fun h => hnode (h ▸ hname)))
      (hfm _ hedge)
      (fun h => absurd h (by simp))


/-- The sum of negated terms. -/
theorem sum_map_neg_eq (l : List Nat) (f : Nat → ℚ) :
    (l.map (fun d => -f d)).sum = -(l.map f).sum := by
  induction l with
  | nil => simp
  | cons x l ih =>
    simp only [List.map_cons, List.sum_cons, ih]
    ring

section reversal
variable (alg : MdotEdgeAlg) (realm : Realm ℚ) (einfo : EntityInfo)

/-- Reversal leaves the node fields as they are. -/
theorem reversed_node_field (hav : alg.edgeAreaVec_ ∉ nodeFieldNames alg)
    (hefvm : "edge_face_velocity_mag" ∉ nodeFieldNames alg) :
    ∀ name ∈ nodeFieldNames alg,
      (reversedRealm alg realm).ngp_field_manager name =
        realm.ngp_field_manager name := by
  intro name hname
  funext idx comp
  have h1 : name ≠ alg.edgeAreaVec_ := fun h => hav (h ▸ hname)
  have h2 : name ≠ "edge_face_velocity_mag" := fun h => hefvm (h ▸ hname)
  simp [reversedRealm, h1, h2]

theorem av_reversed (d : Nat) :
    av alg (reversedRealm alg realm) (reversedEdge einfo) d = -av alg realm einfo d := by
  simp [av, reversedRealm, reversedEdge]

theorem dxj_reversed
    (hR : ∀ name ∈ nodeFieldNames alg,
      (reversedRealm alg realm).ngp_field_manager name = realm.ngp_field_manager name)
    (d : Nat) :
    dxj alg (reversedRealm alg realm) (reversedEdge einfo) d =
      -dxj alg realm einfo d := by
  have h1 := hR alg.coordinates_ (by simp [nodeFieldNames])
  simp only [dxj, h1, reversedEdge]
  ring

theorem geometryLoop_reversed
    (hR : ∀ name ∈ nodeFieldNames alg,
      (reversedRealm alg realm).ngp_field_manager name = realm.ngp_field_manager name) :
    geometryLoop alg (reversedRealm alg realm) (reversedEdge einfo) =
      geometryLoop alg realm einfo := by
  unfold geometryLoop
  have hd : (reversedRealm alg realm).spatial_dimension = realm.spatial_dimension := rfl
  rw [hd]
  congr 1
  funext acc d
  simp only [av_reversed, dxj_reversed alg realm einfo hR, neg_mul_neg]

theorem projTimeScale_reversed
    (hR : ∀ name ∈ nodeFieldNames alg,
      (reversedRealm alg realm).ngp_field_manager name = realm.ngp_field_manager name) :
    projTimeScale alg (reversedRealm alg realm) (reversedEdge einfo) =
      projTimeScale alg realm einfo := by
  have h6 := hR alg.Udiag_ (by simp [nodeFieldNames])
  simp only [projTimeScale, h6, reversedEdge]
  ring

theorem rhoIp_reversed
    (hR : ∀ name ∈ nodeFieldNames alg,
      (reversedRealm alg realm).ngp_field_manager name = realm.ngp_field_manager name) :
    rhoIp alg (reversedRealm alg realm) (reversedEdge einfo) = rhoIp alg realm einfo := by
  have h4 := hR alg.densityNp1_ (by simp [nodeFieldNames])
  simp only [rhoIp, h4, reversedEdge]
  ring

theorem pressureTerm_reversed
    (hR : ∀ name ∈ nodeFieldNames alg,
      (reversedRealm alg realm).ngp_field_manager name = realm.ngp_field_manager name) :
    pressureTerm alg (reversedRealm alg realm) (reversedEdge einfo) =
      -pressureTerm alg realm einfo := by
  have h3 := hR alg.pressure_ (by simp [nodeFieldNames])
  simp only [pressureTerm, inv_axdx, projTimeScale_reversed alg realm einfo hR,
    geometryLoop_reversed alg realm einfo hR, h3]
  simp only [reversedEdge]
  ring

theorem kxj_reversed
    (hR : ∀ name ∈ nodeFieldNames alg,
      (reversedRealm alg realm).ngp_field_manager name = realm.ngp_field_manager name)
    (d : Nat) :
    kxj alg (reversedRealm alg realm) (reversedEdge einfo) d = -kxj alg realm einfo d := by
  simp only [kxj, inv_axdx, geometryLoop_reversed alg realm einfo hR, av_reversed,
    dxj_reversed alg realm einfo hR]
  ring

theorem source_reversed
    (hR : ∀ name ∈ nodeFieldNames alg,
      (reversedRealm alg realm).ngp_field_manager name = realm.ngp_field_manager name) :
    source alg (reversedRealm alg realm) = source alg realm := by
  have h5 := hR alg.Gpdx_ (by simp [nodeFieldNames])
  have h7 := hR "buoyancy_source" (by simp [nodeFieldNames])
  have hb : (reversedRealm alg realm).solutionOptions_ = realm.solutionOptions_ := rfl
  simp only [source, h5, h7, hb]

theorem source_mask_reversed
    (hR : ∀ name ∈ nodeFieldNames alg,
      (reversedRealm alg realm).ngp_field_manager name = realm.ngp_field_manager name) :
    source_mask alg (reversedRealm alg realm) = source_mask alg realm := by
  have h4 := hR alg.densityNp1_ (by simp [nodeFieldNames])
  have h8 := hR "buoyancy_source_mask" (by simp [nodeFieldNames])
  have hb : (reversedRealm alg realm).solutionOptions_ = realm.solutionOptions_ := rfl
  simp only [source_mask, h4, h8, hb]

theorem GjIp_reversed
    (hR : ∀ name ∈ nodeFieldNames alg,
      (reversedRealm alg realm).ngp_field_manager name = realm.ngp_field_manager name)
    (d : Nat) :
    GjIp alg (reversedRealm alg realm) (reversedEdge einfo) d = GjIp alg realm einfo d := by
  have h5 := hR alg.Gpdx_ (by simp [nodeFieldNames])
  have h6 := hR alg.Udiag_ (by simp [nodeFieldNames])
  have hb : (reversedRealm alg realm).solutionOptions_ = realm.solutionOptions_ := rfl
  simp only [GjIp, h5, h6, hb, source_reversed alg realm hR,
    source_mask_reversed alg realm hR, reversedEdge]
  split <;> ring

theorem forcingTerm_reversed
    (hR : ∀ name ∈ nodeFieldNames alg,
      (reversedRealm alg realm).ngp_field_manager name = realm.ngp_field_manager name) :
    forcingTerm alg (reversedRealm alg realm) (reversedEdge einfo) =
      -forcingTerm alg realm einfo := by
  have hb : (reversedRealm alg realm).solutionOptions_ = realm.solutionOptions_ := rfl
  have hd : (reversedRealm alg realm).spatial_dimension = realm.spatial_dimension := rfl
  have hg : ∀ d, gravity (reversedRealm alg realm) d = gravity realm d := fun _ => rfl
  simp only [forcingTerm, hb, hd, hg, projTimeScale_reversed alg realm einfo hR,
    rhoIp_reversed alg realm einfo hR, source_mask_reversed alg realm hR, av_reversed]
  simp only [reversedEdge]
  split
  · rw [← sum_map_neg_eq]
    congr 1
    apply List.map_congr_left
    intro d _
    ring
  · simp

theorem gclTerm_reversed
    (hR : ∀ name ∈ nodeFieldNames alg,
      (reversedRealm alg realm).ngp_field_manager name = realm.ngp_field_manager name) :
    gclTerm alg (reversedRealm alg realm) (reversedEdge einfo) =
      -gclTerm alg realm einfo := by
  have hm : (reversedRealm alg realm).has_mesh_deformation = realm.has_mesh_deformation :=
    rfl
  simp only [gclTerm, hm, rhoIp_reversed alg realm einfo hR]
  by_cases hg : realm.has_mesh_deformation = true
  · simp [hg, reversedRealm, reversedEdge]
  · simp [hg]

theorem loopTerm_reversed
    (hR : ∀ name ∈ nodeFieldNames alg,
      (reversedRealm alg realm).ngp_field_manager name = realm.ngp_field_manager name)
    (d : Nat) :
    loopTerm alg (reversedRealm alg realm) (reversedEdge einfo) d =
      -loopTerm alg realm einfo d := by
  have h2 := hR alg.velocity_ (by simp [nodeFieldNames])
  have h4 := hR alg.densityNp1_ (by simp [nodeFieldNames])
  have hi : (reversedRealm alg realm).get_mdot_interp = realm.get_mdot_interp := rfl
  have hn : nocFac (reversedRealm alg realm) = nocFac realm := rfl
  simp only [loopTerm, h2, h4, hi, hn, rhoIp_reversed alg realm einfo hR,
    GjIp_reversed alg realm einfo hR, kxj_reversed alg realm einfo hR, av_reversed]
  simp only [reversedEdge]
  ring

end reversal

/-- Claim C13: for every edge with non-zero `axdx` and momentum diagonals, with
or without balanced-buoyancy forcing and mesh deformation and for every
`nocFac` and interpolation weight, swapping the two end nodes while negating
the edge area vector (and `edge_face_velocity_mag` when mesh deformation is
active) negates the mass flow rate. -/
theorem tmdot_reversed (alg : MdotEdgeAlg) (realm : Realm ℚ) (einfo : EntityInfo)
    (hav : alg.edgeAreaVec_ ∉ nodeFieldNames alg)
    (hefvm : "edge_face_velocity_mag" ∉ nodeFieldNames alg)
    (_haxdx : (geometryLoop alg realm einfo).1 ≠ 0)
    (_hudL : realm.ngp_field_manager alg.Udiag_ einfo.nodeL 0 ≠ 0)
    (_hudR : realm.ngp_field_manager alg.Udiag_ einfo.nodeR 0 ≠ 0) :
    tmdot alg (reversedRealm alg realm) (reversedEdge einfo) =
      -tmdot alg realm einfo := by
  have hR := reversed_node_field alg realm hav hefvm
  have hd : (reversedRealm alg realm).spatial_dimension = realm.spatial_dimension := rfl
  have hl : loopTerm alg (reversedRealm alg realm) (reversedEdge einfo) =
      fun d => -loopTerm alg realm einfo d :=
    funext (loopTerm_reversed alg realm einfo hR)
  rw [tmdot_eq_terms, tmdot_eq_terms, pressureTerm_reversed alg realm einfo hR,
    forcingTerm_reversed alg realm einfo hR, gclTerm_reversed alg realm einfo hR, hd, hl,
    sum_map_neg_eq]
  ring


/-- A loop that accumulates two sums. -/
theorem foldl_pair_eq_sums (f g : Nat → ℚ) (l : List Nat) (a b : ℚ) :
    l.foldl (fun (acc : ℚ × ℚ) d => (acc.1 + f d, acc.2 + g d)) (a, b) =
      (a + (l.map f).sum, b + (l.map g).sum) := by
  induction l generalizing a b with
  | nil => simp
  | cons x l ih =>
    simp only [List.foldl_cons, ih, List.map_cons, List.sum_cons]
    ext <;> simp only <;> ring

/-- The locals `axdx` and `asq` as sums over the dimensions. -/
theorem geometryLoop_eq_sums (alg : MdotEdgeAlg) (realm : Realm ℚ)
    (einfo : EntityInfo) :
    geometryLoop alg realm einfo =
      (((List.range realm.spatial_dimension).map
          (fun d => av alg realm einfo d * dxj alg realm einfo d)).sum,
        ((List.range realm.spatial_dimension).map
          (fun d => av alg realm einfo d * av alg realm einfo d)).sum) := by
  have h := foldl_pair_eq_sums (fun d => av alg realm einfo d * dxj alg realm einfo d)
    (fun d => av alg realm einfo d * av alg realm einfo d)
    (List.range realm.spatial_dimension) 0 0
  simp only [zero_add] at h
  rw [← h]
  unfold geometryLoop
  norm_num

/-- On an edge whose area vector is `c` times the edge vector the correction
vector `kxj` is zero in every component. -/
theorem kxj_eq_zero_of_aligned (alg : MdotEdgeAlg) (realm : Realm ℚ)
    (einfo : EntityInfo) (c : ℚ) (hc : c ≠ 0)
    (hav : ∀ d, d < realm.spatial_dimension →
      av alg realm einfo d = c * dxj alg realm einfo d)
    (d : Nat) (hd : d < realm.spatial_dimension) :
    kxj alg realm einfo d = 0 := by
  have hmap1 : (List.range realm.spatial_dimension).map
      (fun d => av alg realm einfo d * dxj alg realm einfo d) =
      (List.range realm.spatial_dimension).map
        (fun d => c * (dxj alg realm einfo d * dxj alg realm einfo d)) := by
    apply List.map_congr_left
    intro x hx
    rw [hav x (List.mem_range.mp hx)]
    ring
  have hmap2 : (List.range realm.spatial_dimension).map
      (fun d => av alg realm einfo d * av alg realm einfo d) =
      (List.range realm.spatial_dimension).map
        (fun d => c * c * (dxj alg realm einfo d * dxj alg realm einfo d)) := by
    apply List.map_congr_left
    intro x hx
    rw [hav x (List.mem_range.mp hx)]
    ring
  simp only [kxj, inv_axdx, geometryLoop_eq_sums, hmap1, hmap2, List.sum_map_mul_left,
    hav d hd]
  by_cases hz : dxj alg realm einfo d = 0
  · rw [hz]
    ring
  · have hS : 0 < ((List.range realm.spatial_dimension).map
        (fun d => dxj alg realm einfo d * dxj alg realm einfo d)).sum := by
      have hle := List.single_le_sum
        (l := (List.range realm.spatial_dimension).map
          (fun d => dxj alg realm einfo d * dxj alg realm einfo d))
        (fun x hx => by
          obtain ⟨y, _, rfl⟩ := List.mem_map.mp hx
          exact mul_self_nonneg _)
        (dxj alg realm einfo d * dxj alg realm einfo d)
        (List.mem_map.mpr ⟨d, List.mem_range.mpr hd, rfl⟩)
      exact lt_of_lt_of_le (mul_self_pos.mpr hz) hle
    have hS' := ne_of_gt hS
    norm_num
    field_simp
    ring

/-- Claim C12: on every edge whose area vector is a non-zero multiple `c` of
the edge vector `xR - xL`, the correction vector
`kxj = av[d] - asq * inv_axdx * dxj` is zero in every component, and the mass
flow rate with the non-orthogonal correction enabled (`nocFac = 1`) is the one
with it disabled (`nocFac = 0`). -/
theorem tmdot_aligned_edge (alg : MdotEdgeAlg) (realm : Realm ℚ) (einfo : EntityInfo)
    (c : ℚ) (hc : c ≠ 0)
    (hav : ∀ d, d < realm.spatial_dimension →
      av alg realm einfo d = c * dxj alg realm einfo d) :
    (∀ d, d < realm.spatial_dimension → kxj alg realm einfo d = 0) ∧
      tmdot alg { realm with get_noc_usage := fun _ => true } einfo =
        tmdot alg { realm with get_noc_usage := fun _ => false } einfo := by
  have hk := kxj_eq_zero_of_aligned alg realm einfo c hc hav
  refine ⟨hk, ?_⟩
  rw [tmdot_eq_terms, tmdot_eq_terms]
  have hP : pressureTerm alg { realm with get_noc_usage := fun _ => true } einfo =
      pressureTerm alg { realm with get_noc_usage := fun _ => false } einfo := rfl
  have hF : forcingTerm alg { realm with get_noc_usage := fun _ => true } einfo =
      forcingTerm alg { realm with get_noc_usage := fun _ => false } einfo := rfl
  have hG : gclTerm alg { realm with get_noc_usage := fun _ => true } einfo =
      gclTerm alg { realm with get_noc_usage := fun _ => false } einfo := rfl
  have hL : (List.range
        ({ realm with get_noc_usage := fun _ => true } : Realm ℚ).spatial_dimension).map
        (loopTerm alg { realm with get_noc_usage := fun _ => true } einfo) =
      (List.range
        ({ realm with get_noc_usage := fun _ => false } : Realm ℚ).spatial_dimension).map
        (loopTerm alg { realm with get_noc_usage := fun _ => false } einfo) := by
    show (List.range realm.spatial_dimension).map _ =
      (List.range realm.spatial_dimension).map _
    apply List.map_congr_left
    intro d hd
    have hk1 : kxj alg { realm with get_noc_usage := fun _ => true } einfo d = 0 :=
      hk d (List.mem_range.mp hd)
    have hk0 : kxj alg { realm with get_noc_usage := fun _ => false } einfo d = 0 :=
      hk d (List.mem_range.mp hd)
    simp only [loopTerm, hk1, hk0, zero_mul, sub_zero]
    rfl
  rw [hP, hF, hG, hL]


/-- The hypotheses of `tmdot_mesh_deformation` hold for the algorithm and the
skew realm of the examples. -/
theorem tmdot_mesh_deformation_witness :
    tmdot sampleAlg { skewRealm with has_mesh_deformation := true } sampleEdge =
        tmdot sampleAlg { skewRealm with has_mesh_deformation := false } sampleEdge -
          0.5 *
              (skewRealm.ngp_field_manager sampleAlg.densityNp1_ sampleEdge.nodeL 0 +
                skewRealm.ngp_field_manager sampleAlg.densityNp1_ sampleEdge.nodeR 0) *
            skewRealm.ngp_field_manager "edge_face_velocity_mag" sampleEdge.meshIdx 0 ∧
      ∀ fm' : FieldManager ℚ,
        (∀ name, name ≠ "edge_face_velocity_mag" →
          fm' name = skewRealm.ngp_field_manager name) →
        tmdot sampleAlg
            { skewRealm with has_mesh_deformation := false, ngp_field_manager := fm' }
            sampleEdge =
          tmdot sampleAlg { skewRealm with has_mesh_deformation := false } sampleEdge :=
  tmdot_mesh_deformation sampleAlg skewRealm sampleEdge (by decide) (by decide)

/-- The hypotheses of `tmdot_aligned_edge` hold on the sample edge along the x
axis, whose area vector `(1, 0, 0)` is the edge vector. -/
theorem tmdot_aligned_edge_witness :
    (∀ d, d < (sampleRealm 0).spatial_dimension →
        kxj sampleAlg (sampleRealm 0) sampleEdge d = 0) ∧
      tmdot sampleAlg { sampleRealm 0 with get_noc_usage := fun _ => true } sampleEdge =
        tmdot sampleAlg { sampleRealm 0 with get_noc_usage := fun _ => false }
          sampleEdge :=
  tmdot_aligned_edge sampleAlg (sampleRealm 0) sampleEdge 1 one_ne_zero (by decide!)

/-- The hypotheses of `tmdot_reversed` hold for the skew realm of the examples,
with balanced forcing and mesh deformation active. -/
theorem tmdot_reversed_witness :
    tmdot sampleAlg (reversedRealm sampleAlg skewRealm) (reversedEdge sampleEdge) =
      -tmdot sampleAlg skewRealm sampleEdge :=
  tmdot_reversed sampleAlg skewRealm sampleEdge (by decide) (by decide) (by decide!)
    (by decide!) (by decide!)

end MdotEdgeAlg

/-! ## Theorems: `CoriolisSrc`, the Jacobian entries -/

namespace CoriolisSrc

/-- Claim C14: on a 3D mesh, for fixed latitude and east and north vectors,
multiplying `earthAngularVelocity` by `k` multiplies each of `Jxy_`, `Jxz_` and
`Jyz_` by `k`, and all three are zero when `earthAngularVelocity` is zero. -/
theorem jacobian_proportional (m : CMath ℚ) (realm : Realm ℚ) (k : ℚ)
    (h3 : realm.spatial_dimension = 3) :
    ∃ c ck : CoriolisSrc ℚ,
      new m realm = .ok c ∧
        new m
            { realm with
              solutionOptions_ :=
                { realm.solutionOptions_ with
                  earthAngularVelocity_ :=
                    k * realm.solutionOptions_.earthAngularVelocity_ } } =
          .ok ck ∧
        ck.Jxy_ = k * c.Jxy_ ∧ ck.Jxz_ = k * c.Jxz_ ∧ ck.Jyz_ = k * c.Jyz_ ∧
        (realm.solutionOptions_.earthAngularVelocity_ = 0 →
          c.Jxy_ = 0 ∧ c.Jxz_ = 0 ∧ c.Jyz_ = 0) := by
  simp only [new, h3, ne_eq, not_true_eq_false, if_false, cross_product]
  refine ⟨_, _, rfl, rfl, ?_, ?_, ?_, ?_⟩
  · simp [resize, at_]
    ring
  · simp [resize, at_]
    ring
  · simp [resize, at_]
    ring
  · intro h0
    norm_num [resize, at_, h0]

/-- The hypothesis of `jacobian_proportional` holds for the realm of the
examples, here with the angular velocity tripled. -/
theorem jacobian_proportional_witness :
    ∃ c ck : CoriolisSrc ℚ,
      new CMath.rational (Realm.sample (fun _ _ _ => 0)) = .ok c ∧
        new CMath.rational
            { Realm.sample (fun _ _ _ => 0) with
              solutionOptions_ :=
                { (Realm.sample (fun _ _ _ => 0)).solutionOptions_ with
                  earthAngularVelocity_ :=
                    3 * (Realm.sample (fun _ _ _ => 0)).solutionOptions_.earthAngularVelocity_ } } =
          .ok ck ∧
        ck.Jxy_ = 3 * c.Jxy_ ∧ ck.Jxz_ = 3 * c.Jxz_ ∧ ck.Jyz_ = 3 * c.Jyz_ ∧
        ((Realm.sample (fun _ _ _ => 0)).solutionOptions_.earthAngularVelocity_ = 0 →
          c.Jxy_ = 0 ∧ c.Jxz_ = 0 ∧ c.Jyz_ = 0) :=
  jacobian_proportional CMath.rational (Realm.sample (fun _ _ _ => 0)) 3 rfl

end CoriolisSrc

end sierra.nalu
